import Mathlib

/-!
Shallow embedding of the scraping-automation core of the `automations`
repository, together with theorems settling the frozen claims about it.

The embedding follows the Python sources:
  * `src/app/services/scraping_executor.py` (routine executor, value resolver)
  * `src/app/scraping/helpers.py`           (builder-path selector inference)
  * `src/app/core/scraping.py`              (free-text action generation)
  * `src/app/services/power_automate.py`    (template rendering, `_lookup`)

Python dictionaries are modelled as insertion-ordered association lists,
Python values as the inductive `Value`, raised exceptions as `Except.error`
carrying the exception's string form, and `float` arithmetic as exact
rational arithmetic.  The stdlib HTML parser and the Playwright page are
external collaborators: the page is a bundle of effect oracles and the
builder path receives the parser's output (first-element description).
-/

namespace Scrape

/-- A Python runtime value, as used in the open `metadata` bags, execution
contexts and JSON documents of the repository. -/
inductive Value where
  | none
  | bool (b : Bool)
  | int (n : Int)
  | float (q : ℚ)
  | str (s : String)
  | list (xs : List Value)
  | dict (xs : List (String × Value))
  deriving Repr, Inhabited

/-- Python truthiness (`bool(v)`). -/
def Value.truthy : Value → Bool
  | .none => false
  | .bool b => b
  | .int n => n != 0
  | .float q => q != 0
  | .str s => s ≠ ""
  | .list xs => !xs.isEmpty
  | .dict xs => !xs.isEmpty

/-- `dict.get(key)` on an insertion-ordered association list. -/
def dictGet (d : List (String × Value)) (key : String) : Option Value :=
  (d.find? (fun kv => kv.1 == key)).map (fun kv => kv.2)

/-- `dict[key] = value`: replace in place if the key exists, append otherwise
(Python dicts preserve insertion order). -/
def dictSet (d : List (String × Value)) (key : String) (v : Value) :
    List (String × Value) :=
  match d with
  | [] => [(key, v)]
  | (k', v') :: rest =>
    if k' == key then (key, v) :: rest else (k', v') :: dictSet rest key v

/-- `dict.setdefault(key, default)` (only the resulting dict). -/
def dictSetdefault (d : List (String × Value)) (key : String) (v : Value) :
    List (String × Value) :=
  if (dictGet d key).isSome then d else d ++ [(key, v)]

/-- String-valued attribute dictionaries (`dict[str, str]`). -/
def strGet (d : List (String × String)) (key : String) : Option String :=
  (d.find? (fun kv => kv.1 == key)).map (fun kv => kv.2)

/-- `dict[key] = value` for string-valued dictionaries. -/
def strSet (d : List (String × String)) (key : String) (v : String) :
    List (String × String) :=
  match d with
  | [] => [(key, v)]
  | (k', v') :: rest =>
    if k' == key then (key, v) :: rest else (k', v') :: strSet rest key v

/-- The whitespace class of Python's `str.strip` / `str.split()` / `\s`. -/
def isPySpace (c : Char) : Bool :=
  c = ' ' || c = '\t' || c = '\n' || c = '\r' ||
    c = Char.ofNat 11 || c = Char.ofNat 12

/-- `str.strip()` restricted to ASCII whitespace. -/
def pyStrip (s : String) : String :=
  ⟨((s.toList.dropWhile isPySpace).reverse.dropWhile isPySpace).reverse⟩

/-- Accumulating worker for `pySplit` (`acc` holds the reversed current
token). -/
def pySplitGo : List Char → List Char → List String
  | [], acc => if acc = [] then [] else [⟨acc.reverse⟩]
  | c :: rest, acc =>
    if isPySpace c then
      if acc = [] then pySplitGo rest []
      else ⟨acc.reverse⟩ :: pySplitGo rest []
    else pySplitGo rest (c :: acc)

/-- `str.split()`: split on whitespace runs, dropping empty fields. -/
def pySplit (s : String) : List String := pySplitGo s.toList []

/-- `str.split(sep)` for a single-character separator (keeps empties). -/
def splitChar (sep : Char) (s : String) : List String := go s.toList []
where
  go : List Char → List Char → List String
    | [], acc => [⟨acc.reverse⟩]
    | c :: rest, acc =>
      if c = sep then ⟨acc.reverse⟩ :: go rest []
      else go rest (c :: acc)

/-- `str.lower()` (character-wise ASCII lowering). -/
def lowerStr (s : String) : String := ⟨s.toList.map Char.toLower⟩

/-- `str.startswith(p)`. -/
def startsWithStr (s p : String) : Bool := p.toList.isPrefixOf s.toList

/-- Concatenate with a separator. -/
def joinWith (sep : String) : List String → String
  | [] => ""
  | [x] => x
  | x :: rest => x ++ sep ++ joinWith sep rest

/-- Does `needle` occur as a contiguous run inside the character list? -/
def isSubChars (needle : List Char) : List Char → Bool
  | [] => needle.isEmpty
  | c :: rest => needle.isPrefixOf (c :: rest) || isSubChars needle rest

/-- Python substring test: `needle in hay`. -/
def containsSub (hay needle : String) : Bool :=
  isSubChars needle.toList hay.toList

/-- `a or b` on Python values. -/
def pyOr (a b : Value) : Value := if a.truthy then a else b

/-- `int(s)` on an already-stripped string: optional sign then digits. -/
def pyInt? (s : String) : Option Int :=
  let digitsVal : List Char → Option Nat := fun ds =>
    if ds ≠ [] ∧ ds.all Char.isDigit then
      Option.some (ds.foldl (fun n c => 10 * n + (c.toNat - 48)) 0)
    else Option.none
  match s.toList with
  | '-' :: ds => (digitsVal ds).map (fun n => -(n : Int))
  | '+' :: ds => (digitsVal ds).map (fun n => (n : Int))
  | ds => (digitsVal ds).map (fun n => (n : Int))

mutual
/-- `repr(v)` (approximate: string escapes are not reproduced). -/
def pyRepr : Value → String
  | .none => "None"
  | .bool b => if b then "True" else "False"
  | .int n => toString n
  | .float q => if q.den = 1 then toString q.num ++ ".0"
      else toString q.num ++ "/" ++ toString q.den
  | .str s => "'" ++ s ++ "'"
  | .list xs => "[" ++ pyReprList xs ++ "]"
  | .dict xs => "\x7b" ++ pyReprDict xs ++ "\x7d"

def pyReprList : List Value → String
  | [] => ""
  | [x] => pyRepr x
  | x :: rest => pyRepr x ++ ", " ++ pyReprList rest

def pyReprDict : List (String × Value) → String
  | [] => ""
  | [(k, v)] => "'" ++ k ++ "': " ++ pyRepr v
  | (k, v) :: rest => "'" ++ k ++ "': " ++ pyRepr v ++ ", " ++ pyReprDict rest
end

/-- `str(v)` (floats approximated by an exact rational rendering). -/
def pyStr : Value → String
  | .str s => s
  | v => pyRepr v

/-! ## `app/services/scraping_executor.py` -/

/-- `app.schemas.scraping.ScrapingAction` (pydantic model). -/
structure ScrapingAction where
  type : String
  selector : String
  description : String
  target_tag : Option String
  input_text : Option String
  metadata : List (String × Value)
  deriving Repr

/-- `RoutineCredentials`. -/
structure RoutineCredentials where
  email : String
  password : String
  deriving Repr

/-- A stored routine after loading: target URL plus the raw JSON action
documents returned by `ScrapingRoutine.get_actions()`. -/
structure ScrapingRoutine where
  url : String
  actions : List (List (String × Value))

/-- The per-step result dictionary built at the end of
`_execute_single_action` (exactly the six keys the code emits). -/
structure StepResult where
  index : Nat
  type : String
  selector : String
  status : String
  detail : Option String
  input_text : Option String
  deriving Repr

/-- `ScrapingExecutionOutcome`. -/
structure ScrapingExecutionOutcome where
  url : String
  results : List StepResult
  deriving Repr

/-- `CustomActionResult`. -/
structure CustomActionResult where
  status : String
  detail : Option String
  context_updates : List (String × Value)

/-- The Playwright page surface used by the executor, modelled as a bundle
of effect oracles: `Except.error msg` stands for the primitive raising an
exception whose `str` form is `msg`. -/
structure Page where
  url : String
  goto : String → Except String Unit
  click : String → Except String Unit
  fill : String → String → Except String Unit
  selectOption : String → String → Except String Unit
  waitForTimeout : ℚ → Except String Unit
  evaluate : Value → Except String Unit

/-- `CustomActionHandler`; may raise (`Except.error`), decline (`none`) or
answer with a `CustomActionResult`. -/
def CustomActionHandler :=
  ScrapingAction → RoutineCredentials → List (String × Value) →
    Except String (Option CustomActionResult)

/-- Validation of one raw action document by the pydantic `ScrapingAction`
model: `type` must be one of the five literals, `selector` and
`description` are required strings, `target_tag`/`input_text` optional
strings, `metadata` an optional dict; extra keys are allowed. -/
def parseAction (doc : List (String × Value)) : Except String ScrapingAction := do
  let t ← match dictGet doc "type" with
    | Option.some (Value.str t) =>
      if t ∈ ["click", "fill", "select", "wait", "custom"] then Except.ok t
      else Except.error "validation error: type"
    | _ => Except.error "validation error: type"
  let sel ← match dictGet doc "selector" with
    | Option.some (Value.str s) => Except.ok s
    | _ => Except.error "validation error: selector"
  let desc ← match dictGet doc "description" with
    | Option.some (Value.str s) => Except.ok s
    | _ => Except.error "validation error: description"
  let tt ← match dictGet doc "target_tag" with
    | Option.none => Except.ok Option.none
    | Option.some Value.none => Except.ok Option.none
    | Option.some (Value.str s) => Except.ok (Option.some s)
    | Option.some _ => Except.error "validation error: target_tag"
  let it ← match dictGet doc "input_text" with
    | Option.none => Except.ok Option.none
    | Option.some Value.none => Except.ok Option.none
    | Option.some (Value.str s) => Except.ok (Option.some s)
    | Option.some _ => Except.error "validation error: input_text"
  let md ← match dictGet doc "metadata" with
    | Option.none => Except.ok []
    | Option.some (Value.dict d) => Except.ok d
    | Option.some _ => Except.error "validation error: metadata"
  Except.ok ⟨t, sel, desc, tt, it, md⟩

/-- `_parse_actions`: validate every stored document, first failure wins. -/
def parseActions : List (List (String × Value)) → Except String (List ScrapingAction)
  | [] => Except.ok []
  | doc :: rest => do
    let a ← parseAction doc
    let as ← parseActions rest
    Except.ok (a :: as)

/-- `_lookup_context_value`: dot-path lookup through nested dicts, with
Python's `None` for misses. -/
def lookupDotted (root : Value) (key : String) : Value :=
  go root (splitChar '.' key)
where
  go : Value → List String → Value
    | cur, [] => cur
    | cur, chunk :: rest =>
      let c := pyStrip chunk
      if c = "" then Value.none
      else match cur with
        | Value.dict d => go ((dictGet d c).getD Value.none) rest
        | _ => Value.none

/-- `_merge_context`: recursive dict merge, non-dict values overwrite. -/
def mergeContext : List (String × Value) → List (String × Value) →
    List (String × Value)
  | target, [] => target
  | target, (key, v) :: rest =>
    let target' :=
      match dictGet target key, v with
      | Option.some (Value.dict d1), Value.dict d2 =>
        dictSet target key (Value.dict (mergeContext d1 d2))
      | _, _ => dictSet target key v
    mergeContext target' rest
termination_by _ updates => sizeOf updates
decreasing_by
  · simp only [Prod.mk.sizeOf_spec, Value.dict.sizeOf_spec, List.cons.sizeOf_spec]
    omega
  · simp only [List.cons.sizeOf_spec]
    omega

/-- The attribute keys scanned by the heuristics of `_resolve_input_value`. -/
def heuristicAttrKeys : List String :=
  ["name", "id", "data-testid", "aria-label", "placeholder"]

/-- The per-attribute loop of `_resolve_input_value` (lines 134-141):
string attribute values are lowered; an `email` hit (when the declared
type is empty/text/email) is checked before the `pass`/`pwd` tokens. -/
def scanHeuristicAttrs (credentials : RoutineCredentials) (attrType : String)
    (attrs : List (String × Value)) : List String → Option String
  | [] => Option.none
  | key :: rest =>
    match dictGet attrs key with
    | Option.some (Value.str v) =>
      let lowered := lowerStr v
      if containsSub lowered "email" &&
          (attrType == "" || attrType == "text" || attrType == "email") then
        Option.some credentials.email
      else if containsSub lowered "pass" || containsSub lowered "pwd" then
        Option.some credentials.password
      else scanHeuristicAttrs credentials attrType attrs rest
    | _ => scanHeuristicAttrs credentials attrType attrs rest

/-- Lines 111-115 of `_resolve_input_value`: the `context_key` lookup,
stringified when it yields a non-`None` value. -/
def contextKeyHit (action : ScrapingAction)
    (context : List (String × Value)) : Option String :=
  match dictGet action.metadata "context_key" with
  | Option.some (Value.str key) =>
    match lookupDotted (Value.dict context) key with
    | Value.none => Option.none
    | v => Option.some (pyStr v)
  | _ => Option.none

/-- `if action.input_text:` — the literal value when truthy. -/
def inputTextHit (action : ScrapingAction) : Option String :=
  match action.input_text with
  | Option.some s => if s = "" then Option.none else Option.some s
  | Option.none => Option.none

/-- `metadata.get("expects_secret")` truthiness. -/
def secretFlag (action : ScrapingAction) : Bool :=
  ((dictGet action.metadata "expects_secret").getD Value.none).truthy

/-- `str(metadata.get("label") or "").lower()`. -/
def labelString (action : ScrapingAction) : String :=
  lowerStr (pyStr (pyOr ((dictGet action.metadata "label").getD Value.none)
    (Value.str "")))

/-- `str(attributes.get("type") or "").lower()`. -/
def declaredType (attrs : List (String × Value)) : String :=
  lowerStr (pyStr (pyOr ((dictGet attrs "type").getD Value.none)
    (Value.str "")))

/-- `_resolve_input_value`.  A non-dict `metadata["attributes"]` makes the
heuristic block raise (`attributes.get` on a non-dict), which the model
reports as `Except.error`. -/
def resolveInputValue (action : ScrapingAction)
    (credentials : RoutineCredentials) (context : List (String × Value)) :
    Except String (Option String) :=
  let metadata := action.metadata
  match contextKeyHit action context with
  | Option.some s => Except.ok (Option.some s)
  | Option.none =>
    let attributesVal := (dictGet metadata "attributes").getD (Value.dict [])
    match inputTextHit action with
    | Option.some s => Except.ok (Option.some s)
    | Option.none =>
      if secretFlag action then
        Except.ok (Option.some credentials.password)
      else
        let label := labelString action
        if containsSub label "password" then
          Except.ok (Option.some credentials.password)
        else if containsSub label "email" then
          Except.ok (Option.some credentials.email)
        else
          match attributesVal with
          | Value.dict attrs =>
            let attrType := declaredType attrs
            if attrType = "password" then
              Except.ok (Option.some credentials.password)
            else
              match scanHeuristicAttrs credentials attrType attrs
                  heuristicAttrKeys with
              | Option.some v => Except.ok (Option.some v)
              | Option.none =>
                if attrType = "email" then
                  Except.ok (Option.some credentials.email)
                else
                  let suggested :=
                    (dictGet metadata "suggested_value").getD Value.none
                  if suggested.truthy then
                    Except.ok (Option.some (pyStr suggested))
                  else Except.ok Option.none
          | _ =>
            Except.error "AttributeError: object has no attribute get"

/-- `_resolve_select_value`: input resolution plus the
`metadata.selected_option` fallback. -/
def resolveSelectValue (action : ScrapingAction)
    (credentials : RoutineCredentials) (context : List (String × Value)) :
    Except String (Option String) := do
  let v ← resolveInputValue action credentials context
  match v with
  | Option.some s => Except.ok (Option.some s)
  | Option.none =>
    match dictGet action.metadata "selected_option" with
    | Option.some (Value.str s) =>
      if s ≠ "" then Except.ok (Option.some s) else Except.ok Option.none
    | _ => Except.ok Option.none

/-- `_resolve_wait_timeout` (milliseconds; `bool` is an `int` in Python). -/
def resolveWaitTimeout (action : ScrapingAction) : ℚ :=
  match dictGet action.metadata "delay_seconds" with
  | Option.some (Value.int n) => if 0 ≤ n then (n : ℚ) * 1000 else 1000
  | Option.some (Value.float q) => if 0 ≤ q then q * 1000 else 1000
  | Option.some (Value.bool b) => if b then 1000 else 0
  | _ => 1000

/-- The `try` body of `_execute_single_action`: returns the final
`status`, `detail`, `used_input` and the (possibly merged) context.
Every exception of a page primitive or of the custom handler is absorbed
into `status="error"`, `detail=str(exc)`. -/
def dispatchAction (page : Page) (handler : Option CustomActionHandler)
    (action : ScrapingAction) (credentials : RoutineCredentials)
    (context : List (String × Value)) :
    String × Option String × Option String × List (String × Value) :=
  if action.type = "click" then
    match page.click action.selector with
    | Except.ok _ => ("success", Option.none, Option.none, context)
    | Except.error e => ("error", Option.some e, Option.none, context)
  else if action.type = "fill" then
    match resolveInputValue action credentials context with
    | Except.error e => ("error", Option.some e, Option.none, context)
    | Except.ok Option.none =>
      ("skipped", Option.some "No value available for fill action",
        Option.none, context)
    | Except.ok (Option.some v) =>
      match page.fill action.selector v with
      | Except.ok _ => ("success", Option.none, Option.some v, context)
      | Except.error e => ("error", Option.some e, Option.some v, context)
  else if action.type = "select" then
    match resolveSelectValue action credentials context with
    | Except.error e => ("error", Option.some e, Option.none, context)
    | Except.ok Option.none =>
      ("skipped", Option.some "No option value available for select action",
        Option.none, context)
    | Except.ok (Option.some v) =>
      match page.selectOption action.selector v with
      | Except.ok _ => ("success", Option.none, Option.some v, context)
      | Except.error e => ("error", Option.some e, Option.some v, context)
  else if action.type = "wait" then
    match page.waitForTimeout (resolveWaitTimeout action) with
    | Except.ok _ => ("success", Option.none, Option.none, context)
    | Except.error e => ("error", Option.some e, Option.none, context)
  else
    -- custom or other
    let fallbackScript :
        String × Option String × Option String × List (String × Value) :=
      let script := (dictGet action.metadata "script").getD Value.none
      if script.truthy then
        match page.evaluate script with
        | Except.ok _ => ("success", Option.none, Option.none, context)
        | Except.error e => ("error", Option.some e, Option.none, context)
      else
        ("skipped", Option.some "No executable script provided",
          Option.none, context)
    match handler with
    | Option.some h =>
      match h action credentials context with
      | Except.error e => ("error", Option.some e, Option.none, context)
      | Except.ok (Option.some res) =>
        (res.status, res.detail, Option.none,
          mergeContext context res.context_updates)
      | Except.ok Option.none => fallbackScript
    | Option.none => fallbackScript

/-- `_execute_single_action`: dispatch, then build the result dictionary. -/
def executeSingleAction (page : Page) (handler : Option CustomActionHandler)
    (index : Nat) (action : ScrapingAction)
    (credentials : RoutineCredentials) (context : List (String × Value)) :
    StepResult × List (String × Value) :=
  match dispatchAction page handler action credentials context with
  | (status, detail, usedInput, context') =>
    (⟨index, action.type, action.selector, status, detail, usedInput⟩,
      context')

/-- The `for index, action in enumerate(actions)` loop of
`execute_scraping_routine`, threading the execution context. -/
def runActions (page : Page) (handler : Option CustomActionHandler)
    (credentials : RoutineCredentials) :
    List ScrapingAction → Nat → List (String × Value) → List StepResult
  | [], _, _ => []
  | action :: rest, index, context =>
    match executeSingleAction page handler index action credentials context with
    | (r, context') =>
      r :: runActions page handler credentials rest (index + 1) context'

/-- `execute_scraping_routine`: parse the stored documents, navigate when
the page is still blank (outside any exception handler), then walk the
full action list with an initially empty context. -/
def executeScrapingRoutine (routine : ScrapingRoutine) (page : Page)
    (credentials : RoutineCredentials)
    (handler : Option CustomActionHandler) :
    Except String ScrapingExecutionOutcome :=
  match parseActions routine.actions with
  | Except.error e => Except.error e
  | Except.ok actions =>
    let nav : Except String Unit :=
      if page.url = "" || page.url = "about:blank" then
        page.goto routine.url
      else Except.ok ()
    match nav with
    | Except.error e => Except.error e
    | Except.ok _ =>
      Except.ok ⟨page.url, runActions page handler credentials actions 0 []⟩

/-! ## `app/scraping/helpers.py` -/

/-- `_ElementDescription`: the first start tag captured by the stdlib
HTML parser (an external collaborator), as tag name plus attribute dict
(`None` attribute values already coerced to `""` by `_record`). -/
structure ElementDescription where
  tag : Option String
  attributes : List (String × String)
  deriving Repr

/-- `_ElementDescription.has_data`: `bool(self.tag)`. -/
def ElementDescription.hasData (e : ElementDescription) : Bool :=
  match e.tag with
  | Option.some t => t ≠ ""
  | Option.none => false

/-- `_escape_attr_value`: backslash and double quote escaping. -/
def escapeAttrValue (value : String) : String :=
  ⟨value.toList.foldr
    (fun c acc =>
      if c = '\\' then '\\' :: '\\' :: acc
      else if c = '"' then '\\' :: '"' :: acc
      else c :: acc) []⟩

/-- The f-string `[{attr_name}="{escaped}"]` of `_build_selector`. -/
def bracketAttr (attrName v : String) : String :=
  "[" ++ attrName ++ "=\"" ++ escapeAttrValue v ++ "\"]"

/-- The fixed attribute priority tuple of `_build_selector`. -/
def attributePriority : List String :=
  ["name", "data-testid", "data-test", "data-qa", "aria-label", "data-bind",
    "type"]

/-- `_build_selector`. -/
def buildSelector (element : ElementDescription) : String :=
  if element.hasData = false then "body"
  else
    let attributes := element.attributes
    let tag := match element.tag with
      | Option.some t => if t = "" then "div" else t
      | Option.none => "div"
    let elementId := (strGet attributes "id").getD ""
    if elementId ≠ "" then "#" ++ elementId
    else
      let classNames := pySplit ((strGet attributes "class").getD "")
      let selector :=
        tag ++ String.join (classNames.map (fun cls => "." ++ cls))
      let attributeSelectors :=
        attributePriority.filterMap (fun attrName =>
          match strGet attributes attrName with
          | Option.some v =>
            if v ≠ "" then Option.some (bracketAttr attrName v)
            else Option.none
          | Option.none => Option.none)
      if attributeSelectors ≠ [] then
        selector ++ String.join attributeSelectors
      else if selector ≠ tag then selector
      else tag

/-- `_normalise_action`. -/
def normaliseAction (value : String) : String := lowerStr (pyStrip value)

/-- `_resolve_fill_value`: explicit value, else the first truthy of
`value`/`placeholder`/`aria-label`/`title`. -/
def resolveFillValue (attributes : List (String × String))
    (explicit : Option String) : Option String :=
  let fallback : Option String :=
    ["value", "placeholder", "aria-label", "title"].firstM (fun candidate =>
      match strGet attributes candidate with
      | Option.some v => if v ≠ "" then Option.some v else Option.none
      | Option.none => Option.none)
  match explicit with
  | Option.some s => if s ≠ "" then Option.some s else fallback
  | Option.none => fallback

/-- The dictionaries `build_action_step` returns (`ActionStep` shapes). -/
inductive ActionStep where
  | waitForElement (selector : String) (state : String)
  | waitMs (milliseconds : Nat)
  | click (selector : String)
  | fill (selector : String) (value : Option String)
  deriving Repr

/-- The two failure modes of `build_action_step`. -/
inductive BuildError where
  | unsupported (hint : String)
  | cannotInfer (msg : String)
  deriving Repr

/-- `build_action_step`, taking the parsed first-element description
(the stdlib parser being the external boundary). -/
def buildActionStep (element : ElementDescription) (actionHint : String)
    (value : Option String) : Except BuildError ActionStep :=
  let actionKey := normaliseAction actionHint
  let selector := buildSelector element
  let attributes := element.attributes
  if actionKey ∈ ["wait", "wait for element", "wait for selector"] then
    if element.hasData then
      Except.ok (ActionStep.waitForElement selector "visible")
    else Except.ok (ActionStep.waitMs 1000)
  else if actionKey ∈ ["click", "press", "tap"] then
    if element.hasData = false then
      Except.error (BuildError.cannotInfer
        "Cannot infer a selector for the requested click action")
    else Except.ok (ActionStep.click selector)
  else if actionKey ∈ ["input", "input text", "fill", "type", "type text"] then
    if element.hasData = false then
      Except.error (BuildError.cannotInfer
        "Cannot infer a selector for the requested input action")
    else Except.ok (ActionStep.fill selector (resolveFillValue attributes value))
  else Except.error (BuildError.unsupported actionHint)

/-! ## `app/core/scraping.py` -/

/-- A single-quote character (ASCII 39). -/
def squote : Char := Char.ofNat 39

/-- `(l.dropWhile p).length ≤ l.length`. -/
theorem dropWhile_length_le {α : Type} (p : α → Bool) :
    ∀ l : List α, (l.dropWhile p).length ≤ l.length := by
  intro l
  induction l with
  | nil => simp [List.dropWhile]
  | cons c rest ih =>
    simp only [List.dropWhile]
    split
    · exact Nat.le_succ_of_le ih
    · exact Nat.le_refl _

/-- `_normalise_whitespace`: `" ".join(value.split())`. -/
def normaliseWhitespace (value : String) : String :=
  joinWith " " (pySplit value)

/-- `_ACTION_KEYWORDS`, in source order. -/
def actionKeywords : List (String × String) :=
  [("click", "click"), ("press", "click"), ("tap", "click"),
    ("submit", "click"), ("choose", "select"), ("select", "select"),
    ("pick", "select"), ("fill", "fill"), ("enter", "fill"),
    ("type", "fill"), ("update", "fill"), ("write", "fill"),
    ("wait", "wait"), ("pause", "wait"), ("delay", "wait")]

/-- `_detect_action_type`: first keyword found as a substring wins. -/
def detectActionType (instruction : String) : String :=
  let text := lowerStr instruction
  go text actionKeywords
where
  go (text : String) : List (String × String) → String
    | [] => "custom"
    | (keyword, actionType) :: rest =>
      if containsSub text keyword then actionType else go text rest

/-- Characters matched by `[a-zA-Z0-9:_-]` (tag names). -/
def isTagChar (c : Char) : Bool :=
  c.isAlpha || c.isDigit || c = ':' || c = '_' || c = '-'

/-- First character of an attribute name: `[a-zA-Z_:]`. -/
def isNameStart (c : Char) : Bool := c.isAlpha || c = '_' || c = ':'

/-- Subsequent attribute-name characters: `[-a-zA-Z0-9_:.]`. -/
def isNameChar (c : Char) : Bool :=
  c.isAlpha || c.isDigit || c = '-' || c = '_' || c = ':' || c = '.'

/-- The leftmost match of `<\s*([a-zA-Z0-9:_-]+)` (tag extraction). -/
def scanTag : List Char → Option String
  | [] => Option.none
  | c :: rest =>
    if c = '<' then
      let r2 := rest.dropWhile isPySpace
      let t := r2.takeWhile isTagChar
      if t ≠ [] then Option.some (lowerStr ⟨t⟩) else scanTag rest
    else scanTag rest

/-- One attempt of the attribute regex
`name\s*=\s*"([^"]*)"` / `name\s*=\s*'([^']*)'` at the current position,
returning the captured pair and the remaining input on success. -/
def tryAttr : List Char → Option ((String × String) × List Char)
  | [] => Option.none
  | c :: rest =>
    if isNameStart c then
      let nameTail := rest.takeWhile isNameChar
      let r1 := rest.dropWhile isNameChar
      let r2 := r1.dropWhile isPySpace
      match r2 with
      | '=' :: r3 =>
        let r4 := r3.dropWhile isPySpace
        match r4 with
        | q :: r5 =>
          if q = '"' then
            let body := r5.takeWhile (fun ch => ch ≠ '"')
            match r5.dropWhile (fun ch => ch ≠ '"') with
            | _ :: after => Option.some ((⟨c :: nameTail⟩, ⟨body⟩), after)
            | [] => Option.none
          else if q = squote then
            let body := r5.takeWhile (fun ch => ch ≠ squote)
            match r5.dropWhile (fun ch => ch ≠ squote) with
            | _ :: after => Option.some ((⟨c :: nameTail⟩, ⟨body⟩), after)
            | [] => Option.none
          else Option.none
        | [] => Option.none
      | _ => Option.none
    else Option.none

/-- `re.finditer` over the attribute pattern: leftmost, non-overlapping.
Each successful match consumes at least one character, so a fuel equal to
the input length is always sufficient. -/
def scanAttrPairs : Nat → List Char → List (String × String)
  | 0, _ => []
  | _, [] => []
  | fuel + 1, c :: rest =>
    match tryAttr (c :: rest) with
    | Option.some (kv, after) => kv :: scanAttrPairs fuel after
    | Option.none => scanAttrPairs fuel rest

/-- `_extract_attributes`: first tag plus the attribute dictionary
(later duplicate keys overwrite earlier ones). -/
def extractAttributes (snippet : String) :
    Option String × List (String × String) :=
  let pairs := scanAttrPairs snippet.toList.length snippet.toList
  (scanTag snippet.toList,
    pairs.foldl (fun d kv => strSet d kv.1 kv.2) [])

/-- `_guess_selector`.  The class branch indexes `split()[0]`, which
raises `IndexError` when the class attribute is whitespace-only. -/
def guessSelector (tag : Option String)
    (attributes : List (String × String)) : Except String String :=
  if (strGet attributes "id").getD "" ≠ "" then
    Except.ok ("#" ++ (strGet attributes "id").getD "")
  else
    match attributes.find? (fun kv =>
        startsWithStr kv.1 "data-" && kv.2 ≠ "") with
    | Option.some (k, v) =>
      Except.ok ("[" ++ k ++ "=" ++ String.singleton squote ++ v ++
        String.singleton squote ++ "]")
    | Option.none =>
      let nameVal := (strGet attributes "name").getD ""
      match tag with
      | Option.some t =>
        if nameVal ≠ "" then
          Except.ok (t ++ "[name=" ++ String.singleton squote ++ nameVal ++
            String.singleton squote ++ "]")
        else
          let classValue := (strGet attributes "class").getD ""
          if classValue ≠ "" then
            match pySplit classValue with
            | firstClass :: _ => Except.ok ("." ++ firstClass)
            | [] => Except.error "IndexError: list index out of range"
          else Except.ok t
      | Option.none =>
        let classValue := (strGet attributes "class").getD ""
        if classValue ≠ "" then
          match pySplit classValue with
          | firstClass :: _ => Except.ok ("." ++ firstClass)
          | [] => Except.error "IndexError: list index out of range"
        else Except.ok "*"

/-- The leftmost match of `>([^<]+)<` (inner-text extraction). -/
def scanInnerText : List Char → Option String
  | [] => Option.none
  | c :: rest =>
    if c = '>' then
      let body := rest.takeWhile (fun ch => ch ≠ '<')
      if body ≠ [] ∧ rest.dropWhile (fun ch => ch ≠ '<') ≠ [] then
        Option.some ⟨body⟩
      else scanInnerText rest
    else scanInnerText rest

/-- `_extract_text`: matched run, stripped; empty becomes `None`. -/
def extractText (snippet : String) : Option String :=
  match scanInnerText snippet.toList with
  | Option.none => Option.none
  | Option.some text =>
    let t := pyStrip text
    if t = "" then Option.none else Option.some t

/-- The leftmost match of `"([^"]+)"|'([^']+)'`: the first quoted literal
of the instruction (`_extract_input_text`). -/
def scanQuoted : List Char → Option String
  | [] => Option.none
  | c :: rest =>
    if c = '"' then
      let body := rest.takeWhile (fun ch => ch ≠ '"')
      if body ≠ [] ∧ rest.dropWhile (fun ch => ch ≠ '"') ≠ [] then
        Option.some ⟨body⟩
      else scanQuoted rest
    else if c = squote then
      let body := rest.takeWhile (fun ch => ch ≠ squote)
      if body ≠ [] ∧ rest.dropWhile (fun ch => ch ≠ squote) ≠ [] then
        Option.some ⟨body⟩
      else scanQuoted rest
    else scanQuoted rest

/-- `_extract_input_text`. -/
def extractInputText (instruction : String) : Option String :=
  scanQuoted instruction.toList

/-- `_LABEL_ATTRIBUTES`. -/
def labelAttributes : List String :=
  ["aria-label", "placeholder", "title", "alt", "data-testid", "data-test"]

/-- `_extract_label`: the first truthy label attribute, stripped. -/
def extractLabel (attributes : List (String × String)) : Option String :=
  labelAttributes.firstM (fun key =>
    match strGet attributes key with
    | Option.some v =>
      if v ≠ "" ∧ pyStrip v ≠ "" then Option.some (pyStrip v) else Option.none
    | Option.none => Option.none)

/-- `_extract_suggested_value`. -/
def extractSuggestedValue (attributes : List (String × String)) :
    Option String :=
  ["value", "placeholder", "data-default", "data-value"].firstM (fun key =>
    match strGet attributes key with
    | Option.some v =>
      if v ≠ "" ∧ pyStrip v ≠ "" then Option.some (pyStrip v) else Option.none
    | Option.none => Option.none)

/-- The three conversion classes of `_extract_wait_duration`'s unit. -/
inductive UnitKind where
  | ms
  | sec
  | min
  deriving Repr, DecidableEq

/-- Ordered alternation `milliseconds?|ms|seconds?|secs?|s|minutes?|mins?|m`
(case-insensitive), reduced to the conversion class the code branches on. -/
def matchUnit (cs : List Char) : Option UnitKind :=
  let ciStarts : String → Bool := fun lit =>
    lit.toList.isPrefixOf (cs.map Char.toLower)
  if ciStarts "millisecond" then Option.some UnitKind.ms
  else if ciStarts "ms" then Option.some UnitKind.ms
  else if ciStarts "second" then Option.some UnitKind.sec
  else if ciStarts "sec" then Option.some UnitKind.sec
  else if ciStarts "s" then Option.some UnitKind.sec
  else if ciStarts "minute" then Option.some UnitKind.min
  else if ciStarts "min" then Option.some UnitKind.min
  else if ciStarts "m" then Option.some UnitKind.min
  else Option.none

/-- ms divides by 1000, minutes multiply by 60, seconds unchanged. -/
def applyUnit (k : UnitKind) (value : ℚ) : ℚ :=
  match k with
  | UnitKind.ms => value / 1000
  | UnitKind.sec => value
  | UnitKind.min => value * 60

/-- Numeric value of a digit run. -/
def digitsToNat (ds : List Char) : Nat :=
  ds.foldl (fun n c => 10 * n + (c.toNat - 48)) 0

/-- Value of the matched decimal literal (`float(...)`, modelled exactly). -/
def floatOfParts (ds : List Char) (fs : Option (List Char)) : ℚ :=
  (digitsToNat ds : ℚ) +
    match fs with
    | Option.none => 0
    | Option.some f => (digitsToNat f : ℚ) / ((10 : ℚ) ^ f.length)

/-- One attempt of `\d+(?:\.\d+)?\s*(unit)` at the current position. -/
def tryDuration (cs : List Char) : Option ℚ :=
  let ds := cs.takeWhile Char.isDigit
  if ds = [] then Option.none
  else
    let rest := cs.dropWhile Char.isDigit
    let (value, rest2) :=
      match rest with
      | c :: r =>
        if c = '.' then
          let fs := r.takeWhile Char.isDigit
          if fs = [] then (floatOfParts ds Option.none, rest)
          else (floatOfParts ds (Option.some fs), r.dropWhile Char.isDigit)
        else (floatOfParts ds Option.none, rest)
      | [] => (floatOfParts ds Option.none, rest)
    let rest3 := rest2.dropWhile isPySpace
    match matchUnit rest3 with
    | Option.some k => Option.some (applyUnit k value)
    | Option.none => Option.none

/-- `_extract_wait_duration`: `re.search`, leftmost position first. -/
def extractWaitDurationChars : List Char → Option ℚ
  | [] => Option.none
  | c :: rest =>
    match tryDuration (c :: rest) with
    | Option.some q => Option.some q
    | Option.none => extractWaitDurationChars rest

/-- `_extract_wait_duration` on a string. -/
def extractWaitDuration (instruction : String) : Option ℚ :=
  extractWaitDurationChars instruction.toList

/-- `_calculate_confidence`. -/
def calculateConfidence (selector : String)
    (attributes : List (String × String)) : ℚ :=
  if startsWithStr selector "#" then 0.95
  else if startsWithStr selector "[data-" then 0.9
  else if startsWithStr selector "." then
    if (pySplit ((strGet attributes "class").getD "")).length ≤ 1 then 0.75
    else 0.65
  else if selector ≠ "*" ∧ selector ≠ "" then 0.55
  else 0.35

/-- `_ensure_metadata_fields`: `setdefault(key, None)` in order. -/
def ensureMetadataFields (metadata : List (String × Value))
    (keys : List String) : List (String × Value) :=
  keys.foldl (fun md key => dictSetdefault md key Value.none) metadata

/-- Attribute dictionary as a `Value` (for `metadata["attributes"]`). -/
def attrsToValue (attributes : List (String × String)) : Value :=
  Value.dict (attributes.map (fun kv => (kv.1, Value.str kv.2)))

/-- `generate_scraping_action`.  Returns `Except.error` when selector
inference raises (`IndexError` on a whitespace-only class attribute). -/
def generateScrapingAction (instruction htmlSnippet : String)
    (storeTextAs : Option String) : Except String ScrapingAction :=
  let instruction := normaliseWhitespace (pyStrip instruction)
  let htmlSnippet := pyStrip htmlSnippet
  let actionType := detectActionType instruction
  let (tag, attributes) := extractAttributes htmlSnippet
  match guessSelector tag attributes with
  | Except.error e => Except.error e
  | Except.ok selector =>
    let textContent := extractText htmlSnippet
    let inputText : Option String :=
      if actionType = "fill" ∨ actionType = "select" then
        extractInputText instruction
      else Option.none
    let metadata : List (String × Value) :=
      [("attributes", attrsToValue attributes),
        ("html_preview", Value.str htmlSnippet),
        ("raw_instruction", Value.str instruction),
        ("confidence", Value.float (calculateConfidence selector attributes))]
    let metadata :=
      match extractLabel attributes with
      | Option.some label => dictSet metadata "label" (Value.str label)
      | Option.none => metadata
    let metadata :=
      match textContent with
      | Option.some text => dictSet metadata "text" (Value.str text)
      | Option.none => metadata
    let metadata :=
      match extractSuggestedValue attributes with
      | Option.some sv =>
        if (actionType = "fill" ∨ actionType = "select") ∧
            inputText.getD "" = "" then
          dictSet metadata "suggested_value" (Value.str sv)
        else metadata
      | Option.none => metadata
    let metadata :=
      if actionType = "wait" then
        match extractWaitDuration instruction with
        | Option.some duration =>
          dictSet metadata "delay_seconds" (Value.float duration)
        | Option.none => metadata
      else metadata
    let metadata :=
      if actionType = "fill" ∧
          lowerStr ((strGet attributes "type").getD "") = "password" then
        dictSet metadata "expects_secret" (Value.bool true)
      else metadata
    let metadata :=
      match storeTextAs with
      | Option.some key =>
        if pyStrip key ≠ "" then
          dictSet metadata "store_text_as" (Value.str (pyStrip key))
        else metadata
      | Option.none => metadata
    let metadata :=
      ensureMetadataFields metadata
        ["label", "text", "suggested_value", "delay_seconds"]
    Except.ok
      { type := actionType
        selector := selector
        description := instruction
        target_tag := tag
        input_text :=
          match inputText with
          | Option.some s => if s = "" then Option.none else Option.some s
          | Option.none => Option.none
        metadata := metadata }

/-! ## `app/services/power_automate.py` (template rendering) -/

/-- Opening brace character (written via its code point throughout). -/
def obrace : Char := Char.ofNat 123

/-- Closing brace character. -/
def cbrace : Char := Char.ofNat 125

/-- `[^{}]` of the placeholder pattern. -/
def isNonBrace (c : Char) : Bool := c ≠ obrace && c ≠ cbrace

/-- One attempt of `\{\{([^{}]+)\}\}` at the current position: on success
the captured expression and the input after the match. -/
def phTryMatch (cs : List Char) : Option (String × List Char) :=
  match cs with
  | c1 :: c2 :: rest =>
    if c1 = obrace ∧ c2 = obrace then
      let e := rest.takeWhile isNonBrace
      match rest.dropWhile isNonBrace with
      | d1 :: d2 :: post =>
        if d1 = cbrace ∧ d2 = cbrace ∧ e ≠ [] then
          Option.some (⟨e⟩, post)
        else Option.none
      | _ => Option.none
    else Option.none
  | _ => Option.none

/-- A successful placeholder match consumes at least one character. -/
theorem phTryMatch_shrinks :
    ∀ cs e post, phTryMatch cs = Option.some (e, post) →
      post.length < cs.length := by
  intro cs e post h
  cases cs with
  | nil => simp [phTryMatch] at h
  | cons c1 tl =>
    cases tl with
    | nil => simp [phTryMatch] at h
    | cons c2 rest =>
      simp only [phTryMatch] at h
      split at h
      · split at h
        · next d1 d2 post' heq =>
          split at h
          · have hp : post' = post := by
              injection h with h'
              exact congrArg Prod.snd h'
            have hlen := dropWhile_length_le isNonBrace rest
            rw [heq, hp] at hlen
            simp only [List.length_cons] at hlen ⊢
            omega
          · exact absurd h (by simp)
        · exact absurd h (by simp)
      · exact absurd h (by simp)

/-- `re.finditer` over `\{\{([^{}]+)\}\}`, decomposing the string into
literal characters (`Sum.inl`) and placeholder expressions (`Sum.inr`),
leftmost match first, non-overlapping. -/
def phScan : List Char → List (Sum Char String)
  | [] => []
  | c :: cs =>
    match hm : phTryMatch (c :: cs) with
    | Option.some (e, post) => Sum.inr e :: phScan post
    | Option.none => Sum.inl c :: phScan cs
termination_by l => l.length
decreasing_by
  · exact phTryMatch_shrinks _ _ _ hm
  · simp only [List.length_cons]
    omega

/-- `_lookup`: dotted-path lookup through nested dicts and lists. -/
def lookupPath (data : Value) (path : String) : Value :=
  go data (splitChar '.' path)
where
  go : Value → List String → Value
    | cur, [] => cur
    | cur, chunk :: rest =>
      let c := pyStrip chunk
      if c = "" then Value.none
      else match cur with
        | Value.dict d => go ((dictGet d c).getD Value.none) rest
        | Value.list xs =>
          match pyInt? c with
          | Option.some i =>
            if i < 0 ∨ (xs.length : Int) ≤ i then Value.none
            else go (xs.getD i.toNat Value.none) rest
          | Option.none => Value.none
        | _ => Value.none

/-- `_PLACEHOLDER_PATTERN.sub(replacer, template)`: each resolvable
placeholder becomes `str(value)`, an unresolved one is reproduced as its
original `{{expr}}` text. -/
def subSegs (vars : List (String × Value)) :
    List (Sum Char String) → List Char
  | [] => []
  | Sum.inl c :: rest => c :: subSegs vars rest
  | Sum.inr e :: rest =>
    (match lookupPath (Value.dict vars) (pyStrip e) with
     | Value.none => obrace :: obrace :: (e.toList ++ [cbrace, cbrace])
     | v => (pyStr v).toList) ++ subSegs vars rest

/-- `render_template` on a string template: no matches — unchanged;
a single match spanning the whole string — the raw looked-up value
(or the template itself when unresolved); otherwise interpolation. -/
def renderString (s : String) (vars : List (String × Value)) : Value :=
  let segs := phScan s.toList
  if segs.all (fun seg => seg.isLeft) then Value.str s
  else
    match segs with
    | [Sum.inr e] =>
      (match lookupPath (Value.dict vars) (pyStrip e) with
       | Value.none => Value.str s
       | v => v)
    | _ => Value.str ⟨subSegs vars segs⟩

mutual
/-- `render_template`: recursive interpolation through strings, dicts
and lists; all other values pass through unchanged. -/
def renderTemplate : Value → List (String × Value) → Value
  | Value.str s, vars => renderString s vars
  | Value.dict d, vars => Value.dict (renderTemplateDict d vars)
  | Value.list xs, vars => Value.list (renderTemplateList xs vars)
  | t, _ => t

/-- `render_template` over a dict's values. -/
def renderTemplateDict :
    List (String × Value) → List (String × Value) → List (String × Value)
  | [], _ => []
  | (k, v) :: rest, vars =>
    (k, renderTemplate v vars) :: renderTemplateDict rest vars

/-- `render_template` over a list's items. -/
def renderTemplateList :
    List Value → List (String × Value) → List Value
  | [], _ => []
  | v :: rest, vars => renderTemplate v vars :: renderTemplateList rest vars
end

/-! ## Theorems about the claims -/

/-- The union of the keyword sets `build_action_step` actually accepts. -/
def supportedActionKeys : List String :=
  ["wait", "wait for element", "wait for selector", "click", "press", "tap",
    "input", "input text", "fill", "type", "type text"]

/-- Associativity of string concatenation. -/
theorem strAppend_assoc (a b c : String) : (a ++ b) ++ c = a ++ (b ++ c) :=
  String.ext (by simp [String.data_append, List.append_assoc])

/-- Does the build result report an unsupported action hint? -/
def isUnsupportedError : Except BuildError ActionStep → Bool
  | Except.error (BuildError.unsupported _) => true
  | _ => false

/-- C7: for every parsed element carrying a nonempty `id` attribute, both
selector-inference paths produce exactly `#<id>`, regardless of any other
attributes present. -/
theorem c7_id_absolute_priority (t : String) (tagOpt : Option String)
    (attrs : List (String × String)) (v : String)
    (hid : strGet attrs "id" = Option.some v) (hv : v ≠ "") (ht : t ≠ "") :
    buildSelector ⟨Option.some t, attrs⟩ = "#" ++ v ∧
    guessSelector tagOpt attrs = Except.ok ("#" ++ v) := by
  constructor
  · unfold buildSelector
    simp [ElementDescription.hasData, ht, hid, hv]
  · unfold guessSelector
    simp [hid, hv]

/-- C7 witness: a concrete element with an id and competing attributes. -/
theorem c7_id_absolute_priority_witness :
    buildSelector ⟨Option.some "button",
      [("id", "submit-login"), ("class", "btn primary"), ("name", "go")]⟩ =
      "#submit-login" ∧
    guessSelector (Option.some "button")
      [("id", "submit-login"), ("class", "btn primary"), ("name", "go")] =
      Except.ok ("#submit-login") :=
  c7_id_absolute_priority "button" (Option.some "button")
    [("id", "submit-login"), ("class", "btn primary"), ("name", "go")]
    "submit-login" (by rfl) (by decide) (by decide)

/-- C5 counterexample: in the builder path an arbitrary nonempty `data-*`
attribute (here `data-x`) is ignored entirely — the selector is the bare
tag, not `input[data-x="v"]` — and when `name` and `data-testid` are both
present, `name` is emitted first, so data-* attributes do not take
priority over `name`. -/
theorem c5_counterexample :
    buildSelector ⟨Option.some "input", [("data-x", "v")]⟩ = "input" ∧
    buildSelector ⟨Option.some "input", [("data-x", "v")]⟩ ≠
      "input[data-x=\"v\"]" ∧
    buildSelector ⟨Option.some "input", [("name", "n"), ("data-testid", "t")]⟩ =
      "input[name=\"n\"][data-testid=\"t\"]" := by
  refine ⟨by rfl, by decide, by rfl⟩

/-- C5 amended: `_build_selector` appends bracket attributes only from the
fixed priority tuple `name, data-testid, data-test, data-qa, aria-label,
data-bind, type`, in that fixed order (`name` first); a `data-*` attribute
outside this tuple is ignored. -/
theorem c5_fixed_attribute_chain :
    (∀ tag n t, tag ≠ "" → n ≠ "" → t ≠ "" →
      buildSelector ⟨Option.some tag, [("name", n), ("data-testid", t)]⟩ =
        tag ++ (bracketAttr "name" n ++ bracketAttr "data-testid" t)) ∧
    (∀ tag k v, tag ≠ "" → startsWithStr k "data-" = true →
      k ∉ attributePriority → k ≠ "id" → k ≠ "class" →
      buildSelector ⟨Option.some tag, [(k, v)]⟩ = tag) := by
  constructor
  · intro tag n t htag hn ht
    unfold buildSelector
    simp [ElementDescription.hasData, htag, strGet, attributePriority,
      hn, ht, pySplit, pySplitGo, String.join, strAppend_assoc,
      String.append_empty, String.empty_append]
  · intro tag k v htag _ hk hid hclass
    simp only [attributePriority, List.mem_cons, List.not_mem_nil, or_false,
      not_or] at hk
    obtain ⟨h1, h2, h3, h4, h5, h6, h7⟩ := hk
    unfold buildSelector
    simp [ElementDescription.hasData, htag, strGet, attributePriority,
      pySplit, pySplitGo, h1, h2, h3, h4, h5, h6, h7, hid, hclass,
      String.join, String.append_empty]

/-- C6 counterexample: the documented select-family (`choose`, `select`,
`pick`) and the keywords `submit`, `enter`, `pause` are rejected by
`build_action_step` with an unsupported-action error even on an element
with a perfectly inferable selector. -/
theorem c6_counterexample :
    buildActionStep ⟨Option.some "select", [("id", "colour")]⟩ "select"
      Option.none = Except.error (BuildError.unsupported "select") ∧
    buildActionStep ⟨Option.some "select", [("id", "colour")]⟩ "choose"
      Option.none = Except.error (BuildError.unsupported "choose") ∧
    buildActionStep ⟨Option.some "select", [("id", "colour")]⟩ "pick"
      Option.none = Except.error (BuildError.unsupported "pick") ∧
    buildActionStep ⟨Option.some "button", [("id", "go")]⟩ "submit"
      Option.none = Except.error (BuildError.unsupported "submit") ∧
    buildActionStep ⟨Option.some "input", [("id", "f")]⟩ "enter"
      Option.none = Except.error (BuildError.unsupported "enter") ∧
    buildActionStep ⟨Option.some "div", [("id", "d")]⟩ "pause"
      Option.none = Except.error (BuildError.unsupported "pause") :=
  ⟨rfl, rfl, rfl, rfl, rfl, rfl⟩

/-- C6 amended: after lowercasing/trimming, `build_action_step` accepts
exactly the keys `wait`, `wait for element`, `wait for selector`,
`click`, `press`, `tap`, `input`, `input text`, `fill`, `type`,
`type text`, mapping each family to its action kind; every other hint —
including the whole select-family and `submit`, `enter`, `update`,
`write`, `pause`, `delay` — fails with an unsupported-action error. -/
theorem c6_keyword_families :
    (∀ element hint value,
      isUnsupportedError (buildActionStep element hint value) = true ↔
        normaliseAction hint ∉ supportedActionKeys) ∧
    (∀ element hint value,
      normaliseAction hint ∈ ["wait", "wait for element", "wait for selector"] →
      (element.hasData = true →
        buildActionStep element hint value =
          Except.ok (ActionStep.waitForElement (buildSelector element) "visible")) ∧
      (element.hasData = false →
        buildActionStep element hint value =
          Except.ok (ActionStep.waitMs 1000))) ∧
    (∀ element hint value,
      normaliseAction hint ∈ ["click", "press", "tap"] →
      element.hasData = true →
      buildActionStep element hint value =
        Except.ok (ActionStep.click (buildSelector element))) ∧
    (∀ element hint value,
      normaliseAction hint ∈ ["input", "input text", "fill", "type", "type text"] →
      element.hasData = true →
      buildActionStep element hint value =
        Except.ok (ActionStep.fill (buildSelector element)
          (resolveFillValue element.attributes value))) ∧
    (∀ element hint value,
      normaliseAction hint ∈
        ["choose", "select", "pick", "submit", "enter", "update", "write",
          "pause", "delay"] →
      buildActionStep element hint value =
        Except.error (BuildError.unsupported hint)) := by
  refine ⟨?_, ?_, ?_, ?_, ?_⟩
  · intro element hint value
    unfold buildActionStep
    by_cases h1 : normaliseAction hint ∈ ["wait", "wait for element", "wait for selector"]
    · simp only [h1, if_true]
      constructor
      · intro h
        split at h <;> simp [isUnsupportedError] at h
      · intro h
        exfalso
        apply h
        simp only [supportedActionKeys, List.mem_cons] at *
        tauto
    · by_cases h2 : normaliseAction hint ∈ ["click", "press", "tap"]
      · simp only [h1, if_false, h2, if_true]
        constructor
        · intro h
          split at h <;> simp [isUnsupportedError] at h
        · intro h
          exfalso
          apply h
          simp only [supportedActionKeys, List.mem_cons] at *
          tauto
      · by_cases h3 : normaliseAction hint ∈ ["input", "input text", "fill", "type", "type text"]
        · simp only [h1, if_false, h2, h3, if_true]
          constructor
          · intro h
            split at h <;> simp [isUnsupportedError] at h
          · intro h
            exfalso
            apply h
            simp only [supportedActionKeys, List.mem_cons] at *
            tauto
        · simp only [h1, if_false, h2, h3, isUnsupportedError]
          simp only [supportedActionKeys, List.mem_cons, List.not_mem_nil] at h1 h2 h3 ⊢
          tauto
  · intro element hint value h
    unfold buildActionStep
    simp only [h, if_true]
    constructor
    · intro hd
      simp [hd]
    · intro hd
      simp [hd]
  · intro element hint value h hd
    have h1 : normaliseAction hint ∉ ["wait", "wait for element", "wait for selector"] := by
      simp only [List.mem_cons, List.not_mem_nil] at h ⊢
      rcases h with h | h | h | h <;> simp [h]
    unfold buildActionStep
    simp [h1, h, hd]
  · intro element hint value h hd
    have h1 : normaliseAction hint ∉ ["wait", "wait for element", "wait for selector"] := by
      simp only [List.mem_cons, List.not_mem_nil] at h ⊢
      rcases h with h | h | h | h | h | h <;> simp [h]
    have h2 : normaliseAction hint ∉ ["click", "press", "tap"] := by
      simp only [List.mem_cons, List.not_mem_nil] at h ⊢
      rcases h with h | h | h | h | h | h <;> simp [h]
    unfold buildActionStep
    simp [h1, h2, h, hd]
  · intro element hint value h
    have h1 : normaliseAction hint ∉ ["wait", "wait for element", "wait for selector"] := by
      simp only [List.mem_cons, List.not_mem_nil] at h ⊢
      rcases h with h | h | h | h | h | h | h | h | h | h <;> simp [h]
    have h2 : normaliseAction hint ∉ ["click", "press", "tap"] := by
      simp only [List.mem_cons, List.not_mem_nil] at h ⊢
      rcases h with h | h | h | h | h | h | h | h | h | h <;> simp [h]
    have h3 : normaliseAction hint ∉ ["input", "input text", "fill", "type", "type text"] := by
      simp only [List.mem_cons, List.not_mem_nil] at h ⊢
      rcases h with h | h | h | h | h | h | h | h | h | h <;> simp [h]
    unfold buildActionStep
    simp [h1, h2, h3]

/-- C5 witness: concrete chained-attribute selector via the amended rule. -/
theorem c5_fixed_attribute_chain_witness :
    buildSelector ⟨Option.some "input", [("name", "user"), ("data-testid", "login")]⟩ =
      "input" ++ (bracketAttr "name" "user" ++ bracketAttr "data-testid" "login") ∧
    buildSelector ⟨Option.some "input", [("data-custom", "v")]⟩ = "input" := by
  constructor
  · exact c5_fixed_attribute_chain.1 "input" "user" "login"
      (by decide) (by decide) (by decide)
  · exact c5_fixed_attribute_chain.2 "input" "data-custom" "v"
      (by decide) (by decide) (by decide) (by decide) (by decide)

/-- C6 witness: concrete applications of the amended families. -/
theorem c6_keyword_families_witness :
    buildActionStep ⟨Option.some "div", [("id", "x")]⟩ " Tap " Option.none =
      Except.ok (ActionStep.click
        (buildSelector ⟨Option.some "div", [("id", "x")]⟩)) ∧
    isUnsupportedError (buildActionStep ⟨Option.some "div", [("id", "x")]⟩
      "hover" Option.none) = true := by
  constructor
  · exact (c6_keyword_families.2.2.1 ⟨Option.some "div", [("id", "x")]⟩
      " Tap " Option.none (by decide) (by decide))
  · exact (c6_keyword_families.1 ⟨Option.some "div", [("id", "x")]⟩
      "hover" Option.none).mpr (by decide)

/-- C3 counterexample: with attributes `{name: "email_pass"}` (no declared
type) and no earlier rule firing, the resolver returns the email, not the
password — although the attribute value contains the password-like token
`pass` — because inside the attribute loop the `email` check precedes the
`pass`/`pwd` check, contrary to the claimed order. -/
theorem c3_counterexample :
    resolveInputValue
      ⟨"fill", "#f", "", Option.none, Option.none,
        [("attributes", Value.dict [("name", Value.str "email_pass")])]⟩
      ⟨"user@example.com", "hunter2"⟩ [] =
      Except.ok (Option.some "user@example.com") ∧
    ("user@example.com" : String) ≠ "hunter2" := by
  exact ⟨rfl, by decide⟩

/-- C3 amended: the resolution order is (1) stringified non-null
`context_key` lookup; (2) non-empty `input_text`; (3) truthy
`expects_secret` → password; (4) label containing "password" → password,
else containing "email" → email; (5) attribute heuristics with
`type=password` → password first, then the attributes `name`, `id`,
`data-testid`, `aria-label`, `placeholder` scanned in that order where for
each single attribute the "email" substring test (with declared type
empty/text/email) is applied before the `pass`/`pwd` token test; (6)
`type=email` → email; (7) truthy `suggested_value`, stringified; (8)
otherwise null. -/
theorem c3_resolution_order :
    ∀ (a : ScrapingAction) (creds : RoutineCredentials)
      (ctx : List (String × Value)),
    (∀ key v, dictGet a.metadata "context_key" = Option.some (Value.str key) →
      lookupDotted (Value.dict ctx) key = v → v ≠ Value.none →
      resolveInputValue a creds ctx = Except.ok (Option.some (pyStr v))) ∧
    (contextKeyHit a ctx = Option.none →
      ∀ s, a.input_text = Option.some s → s ≠ "" →
      resolveInputValue a creds ctx = Except.ok (Option.some s)) ∧
    (contextKeyHit a ctx = Option.none → inputTextHit a = Option.none →
      secretFlag a = true →
      resolveInputValue a creds ctx = Except.ok (Option.some creds.password)) ∧
    (contextKeyHit a ctx = Option.none → inputTextHit a = Option.none →
      secretFlag a = false →
      containsSub (labelString a) "password" = true →
      resolveInputValue a creds ctx = Except.ok (Option.some creds.password)) ∧
    (contextKeyHit a ctx = Option.none → inputTextHit a = Option.none →
      secretFlag a = false →
      containsSub (labelString a) "password" = false →
      containsSub (labelString a) "email" = true →
      resolveInputValue a creds ctx = Except.ok (Option.some creds.email)) ∧
    (∀ attrs, contextKeyHit a ctx = Option.none → inputTextHit a = Option.none →
      secretFlag a = false →
      containsSub (labelString a) "password" = false →
      containsSub (labelString a) "email" = false →
      (dictGet a.metadata "attributes").getD (Value.dict []) = Value.dict attrs →
      declaredType attrs = "password" →
      resolveInputValue a creds ctx = Except.ok (Option.some creds.password)) ∧
    (∀ attrs v, contextKeyHit a ctx = Option.none → inputTextHit a = Option.none →
      secretFlag a = false →
      containsSub (labelString a) "password" = false →
      containsSub (labelString a) "email" = false →
      (dictGet a.metadata "attributes").getD (Value.dict []) = Value.dict attrs →
      declaredType attrs ≠ "password" →
      scanHeuristicAttrs creds (declaredType attrs) attrs heuristicAttrKeys =
        Option.some v →
      resolveInputValue a creds ctx = Except.ok (Option.some v)) ∧
    (∀ ty attrs nv, dictGet attrs "name" = Option.some (Value.str nv) →
      containsSub (lowerStr nv) "email" = true →
      (ty = "" ∨ ty = "text" ∨ ty = "email") →
      scanHeuristicAttrs creds ty attrs heuristicAttrKeys =
        Option.some creds.email) ∧
    (∀ attrs, contextKeyHit a ctx = Option.none → inputTextHit a = Option.none →
      secretFlag a = false →
      containsSub (labelString a) "password" = false →
      containsSub (labelString a) "email" = false →
      (dictGet a.metadata "attributes").getD (Value.dict []) = Value.dict attrs →
      declaredType attrs ≠ "password" →
      scanHeuristicAttrs creds (declaredType attrs) attrs heuristicAttrKeys =
        Option.none →
      declaredType attrs = "email" →
      resolveInputValue a creds ctx = Except.ok (Option.some creds.email)) ∧
    (∀ attrs, contextKeyHit a ctx = Option.none → inputTextHit a = Option.none →
      secretFlag a = false →
      containsSub (labelString a) "password" = false →
      containsSub (labelString a) "email" = false →
      (dictGet a.metadata "attributes").getD (Value.dict []) = Value.dict attrs →
      declaredType attrs ≠ "password" →
      scanHeuristicAttrs creds (declaredType attrs) attrs heuristicAttrKeys =
        Option.none →
      declaredType attrs ≠ "email" →
      (((dictGet a.metadata "suggested_value").getD Value.none).truthy = true →
        resolveInputValue a creds ctx = Except.ok (Option.some
          (pyStr ((dictGet a.metadata "suggested_value").getD Value.none)))) ∧
      (((dictGet a.metadata "suggested_value").getD Value.none).truthy = false →
        resolveInputValue a creds ctx = Except.ok Option.none)) := by
  intro a creds ctx
  refine ⟨?_, ?_, ?_, ?_, ?_, ?_, ?_, ?_, ?_, ?_⟩
  · intro key v hkey hv hne
    have hhit : contextKeyHit a ctx = Option.some (pyStr v) := by
      cases v <;> simp_all [contextKeyHit]
    unfold resolveInputValue
    rw [hhit]
  · intro hmiss s hs hne
    have hhit : inputTextHit a = Option.some s := by
      unfold inputTextHit
      rw [hs]
      simp [hne]
    unfold resolveInputValue
    rw [hmiss, hhit]
  · intro hmiss hmiss2 hsecret
    unfold resolveInputValue
    rw [hmiss, hmiss2]
    simp [hsecret]
  · intro hmiss hmiss2 hsecret hlabel
    unfold resolveInputValue
    rw [hmiss, hmiss2]
    simp [hsecret, hlabel]
  · intro hmiss hmiss2 hsecret hlp hle
    unfold resolveInputValue
    rw [hmiss, hmiss2]
    simp [hsecret, hlp, hle]
  · intro attrs hmiss hmiss2 hsecret hlp hle hattrs hty
    unfold resolveInputValue
    rw [hmiss, hmiss2]
    simp [hsecret, hlp, hle, hattrs, hty]
  · intro attrs v hmiss hmiss2 hsecret hlp hle hattrs hty hscan
    unfold resolveInputValue
    rw [hmiss, hmiss2]
    simp [hsecret, hlp, hle, hattrs, hty, hscan]
  · intro ty attrs nv hname hemail hty
    have hok : (ty == "" || ty == "text" || ty == "email") = true := by
      rcases hty with h | h | h <;> simp [h]
    simp [scanHeuristicAttrs, heuristicAttrKeys, hname, hemail, hok]
  · intro attrs hmiss hmiss2 hsecret hlp hle hattrs hty hscan htye
    unfold resolveInputValue
    rw [hmiss, hmiss2]
    rw [htye] at hscan
    simp [hsecret, hlp, hle, hattrs, hty, hscan, htye]
  · intro attrs hmiss hmiss2 hsecret hlp hle hattrs hty hscan htye
    constructor
    · intro hsug
      unfold resolveInputValue
      rw [hmiss, hmiss2]
      simp [hsecret, hlp, hle, hattrs, hty, hscan, htye, hsug]
    · intro hsug
      unfold resolveInputValue
      rw [hmiss, hmiss2]
      simp [hsecret, hlp, hle, hattrs, hty, hscan, htye, hsug]

/-- C3 witness: concrete hits for the secret flag and the context key. -/
theorem c3_resolution_order_witness :
    resolveInputValue
      ⟨"fill", "#f", "", Option.none, Option.none,
        [("expects_secret", Value.bool true)]⟩
      ⟨"a@b.com", "p"⟩ [] = Except.ok (Option.some "p") ∧
    resolveInputValue
      ⟨"fill", "#f", "", Option.none, Option.none,
        [("context_key", Value.str "user.name")]⟩
      ⟨"a@b.com", "p"⟩ [("user", Value.dict [("name", Value.str "Ada")])] =
      Except.ok (Option.some "Ada") := by
  constructor
  · exact (c3_resolution_order
      ⟨"fill", "#f", "", Option.none, Option.none,
        [("expects_secret", Value.bool true)]⟩
      ⟨"a@b.com", "p"⟩ []).2.2.1 rfl rfl rfl
  · exact (c3_resolution_order
      ⟨"fill", "#f", "", Option.none, Option.none,
        [("context_key", Value.str "user.name")]⟩
      ⟨"a@b.com", "p"⟩
      [("user", Value.dict [("name", Value.str "Ada")])]).1
      "user.name" (Value.str "Ada") rfl rfl (fun h => Value.noConfusion h)

/-- `takeWhile` over an append whose first part satisfies `p`. -/
theorem takeWhile_append_all {α : Type} (p : α → Bool) :
    ∀ l1 l2, (∀ c ∈ l1, p c = true) →
      List.takeWhile p (l1 ++ l2) = l1 ++ List.takeWhile p l2 := by
  intro l1 l2 h
  induction l1 with
  | nil => simp
  | cons c rest ih =>
    have hc : p c = true := h c (by simp)
    simp only [List.cons_append, List.takeWhile_cons, hc, if_true]
    rw [ih (fun x hx => h x (by simp [hx]))]

/-- `dropWhile` over an append whose first part satisfies `p`. -/
theorem dropWhile_append_all {α : Type} (p : α → Bool) :
    ∀ l1 l2, (∀ c ∈ l1, p c = true) →
      List.dropWhile p (l1 ++ l2) = List.dropWhile p l2 := by
  intro l1 l2 h
  induction l1 with
  | nil => simp
  | cons c rest ih =>
    have hc : p c = true := h c (by simp)
    simp only [List.cons_append, List.dropWhile_cons, hc, if_true]
    exact ih (fun x hx => h x (by simp [hx]))

/-- A placeholder match fails at a position whose head is not `{`. -/
theorem phTryMatch_of_head_ne (c : Char) (cs : List Char)
    (hc : c ≠ obrace) : phTryMatch (c :: cs) = Option.none := by
  cases cs with
  | nil => simp [phTryMatch]
  | cons c2 rest => simp [phTryMatch, hc]

/-- `phScan` on a literal (non-matching) head. -/
theorem phScan_cons_of_none (c : Char) (cs : List Char)
    (h : phTryMatch (c :: cs) = Option.none) :
    phScan (c :: cs) = Sum.inl c :: phScan cs := by
  conv_lhs => rw [phScan.eq_def]
  split
  · rename_i heq
    exact absurd heq (by simp)
  · rename_i c' rest' heq
    injection heq with h1 h2
    subst h1
    subst h2
    split
    · rename_i e post heq2
      rw [h] at heq2
      exact absurd heq2 (by simp)
    · rfl

/-- `phScan` on a successful placeholder match. -/
theorem phScan_cons_of_some (c : Char) (cs : List Char) (e : String)
    (post : List Char) (h : phTryMatch (c :: cs) = Option.some (e, post)) :
    phScan (c :: cs) = Sum.inr e :: phScan post := by
  conv_lhs => rw [phScan.eq_def]
  split
  · rename_i heq
    exact absurd heq (by simp)
  · rename_i c' rest' heq
    injection heq with h1 h2
    subst h1
    subst h2
    split
    · rename_i e' post' heq2
      rw [h] at heq2
      have he : e = e' := by
        injection heq2 with h'
        exact congrArg Prod.fst h'
      have hp : post = post' := by
        injection heq2 with h'
        exact congrArg Prod.snd h'
      rw [he, hp]
    · rename_i heq2
      rw [h] at heq2
      exact absurd heq2 (by simp)

/-- `{{` followed by a nonempty brace-free run and `}}` is matched,
capturing exactly that run. -/
theorem phTryMatch_placeholder (e post : List Char) (he : e ≠ [])
    (hb : ∀ c ∈ e, isNonBrace c = true) :
    phTryMatch (obrace :: obrace :: (e ++ cbrace :: cbrace :: post)) =
      Option.some (⟨e⟩, post) := by
  have htake : List.takeWhile isNonBrace (e ++ cbrace :: cbrace :: post) = e := by
    rw [takeWhile_append_all isNonBrace e _ hb]
    simp [List.takeWhile_cons, isNonBrace]
  have hdrop : List.dropWhile isNonBrace (e ++ cbrace :: cbrace :: post) =
      cbrace :: cbrace :: post := by
    rw [dropWhile_append_all isNonBrace e _ hb]
    simp [List.dropWhile_cons, isNonBrace]
  simp only [phTryMatch, htake, hdrop]
  simp [he]

/-- A brace-free list scans to all-literal segments. -/
theorem phScan_all_literal (l : List Char)
    (h : ∀ c ∈ l, isNonBrace c = true) : phScan l = l.map Sum.inl := by
  induction l with
  | nil =>
    rw [phScan.eq_def]
    rfl
  | cons c rest ih =>
    have hc : c ≠ obrace := by
      have := h c (by simp)
      simp [isNonBrace] at this
      exact this.1
    rw [phScan_cons_of_none c rest (phTryMatch_of_head_ne c rest hc)]
    rw [ih (fun x hx => h x (by simp [hx]))]
    rfl

/-- A brace-free prefix contributes literal segments. -/
theorem phScan_literal_append (pre tail : List Char)
    (h : ∀ c ∈ pre, isNonBrace c = true) :
    phScan (pre ++ tail) = pre.map Sum.inl ++ phScan tail := by
  induction pre with
  | nil => simp
  | cons c rest ih =>
    have hc : c ≠ obrace := by
      have := h c (by simp)
      simp [isNonBrace] at this
      exact this.1
    have : phTryMatch (c :: (rest ++ tail)) = Option.none :=
      phTryMatch_of_head_ne c _ hc
    simp only [List.cons_append, phScan_cons_of_none c _ this]
    rw [ih (fun x hx => h x (by simp [hx]))]
    rfl

/-- A full placeholder at the head of the scan. -/
theorem phScan_placeholder_cons (e post : List Char) (he : e ≠ [])
    (hb : ∀ c ∈ e, isNonBrace c = true) :
    phScan (obrace :: obrace :: (e ++ cbrace :: cbrace :: post)) =
      Sum.inr (⟨e⟩ : String) :: phScan post :=
  phScan_cons_of_some _ _ _ _ (phTryMatch_placeholder e post he hb)

/-- `subSegs` over literal segments reproduces the characters. -/
theorem subSegs_literal_append (vars : List (String × Value))
    (l : List Char) (rest : List (Sum Char String)) :
    subSegs vars (l.map Sum.inl ++ rest) = l ++ subSegs vars rest := by
  induction l with
  | nil => simp
  | cons c cs ih => simp [subSegs, ih]

/-- Structure eta for strings. -/
theorem string_eta (s : String) : (⟨s.data⟩ : String) = s := rfl

/-- A nonempty string has nonempty character data. -/
theorem data_ne_nil_of_ne_empty (s : String) (h : s ≠ "") : s.data ≠ [] := by
  intro hd
  exact h (String.ext hd)

/-- Character data of `{{e}}` (left-associated as in the statements). -/
theorem data_wrapped (e : String) :
    ("\x7b\x7b" ++ e ++ "\x7d\x7d").data =
      obrace :: obrace :: (e.data ++ cbrace :: cbrace :: []) := by
  have h2 : ("\x7b\x7b" : String).data = [obrace, obrace] := by decide
  have h3 : ("\x7d\x7d" : String).data = [cbrace, cbrace] := by decide
  have h4 : ("\x7b\x7b" ++ e ++ "\x7d\x7d").data =
      ("\x7b\x7b" : String).data ++ e.data ++ ("\x7d\x7d" : String).data := by
    simp [String.data_append]
  rw [h4, h2, h3]
  simp

/-- `render_template` on a string that is exactly one placeholder: the raw
looked-up value when resolvable, the original template otherwise. -/
theorem renderString_single_placeholder (vars : List (String × Value))
    (e : String) (he : e ≠ "") (hb : ∀ c ∈ e.data, isNonBrace c = true) :
    renderTemplate (Value.str ("\x7b\x7b" ++ e ++ "\x7d\x7d")) vars =
      (match lookupPath (Value.dict vars) (pyStrip e) with
       | Value.none => Value.str ("\x7b\x7b" ++ e ++ "\x7d\x7d")
       | v => v) := by
  show renderString ("\x7b\x7b" ++ e ++ "\x7d\x7d") vars = _
  unfold renderString
  have hscan : phScan (("\x7b\x7b" ++ e ++ "\x7d\x7d").toList) =
      [Sum.inr e] := by
    show phScan (("\x7b\x7b" ++ e ++ "\x7d\x7d").data) = _
    rw [data_wrapped]
    rw [phScan_placeholder_cons e.data [] (data_ne_nil_of_ne_empty e he) hb]
    rw [string_eta]
    rw [phScan.eq_def]
  rw [hscan]
  simp

/-- `render_template` on a string whose scan has a placeholder but is not
a single whole-string placeholder: regex substitution over the segments. -/
theorem renderString_multi (vars : List (String × Value)) (s : String)
    (segs : List (Sum Char String)) (hscan : phScan s.toList = segs)
    (hnotall : (segs.all fun seg => seg.isLeft) = false)
    (hnotsingle : ∀ e, segs ≠ [Sum.inr e]) :
    renderTemplate (Value.str s) vars = Value.str ⟨subSegs vars segs⟩ := by
  show renderString s vars = _
  unfold renderString
  rw [hscan]
  match segs, hnotsingle with
  | [], _ => simp [hnotall] at *
  | [Sum.inl c], _ => simp [hnotall]
  | [Sum.inr e], hns => exact absurd rfl (hns e)
  | x :: y :: rest, _ =>
    cases x with
    | inl c => simp [hnotall]
    | inr e => simp [hnotall]

/-- `subSegs` over only-literal segments. -/
theorem subSegs_all_literal (vars : List (String × Value)) (l : List Char) :
    subSegs vars (l.map Sum.inl) = l := by
  have h := subSegs_literal_append vars l []
  simp only [List.append_nil] at h
  rw [h]
  show l ++ ([] : List Char) = l
  simp

/-- Character data of an embedded placeholder template. -/
theorem data_embedded (pre e post : String) :
    (pre ++ "\x7b\x7b" ++ e ++ "\x7d\x7d" ++ post).data =
      pre.data ++ (obrace :: obrace ::
        (e.data ++ cbrace :: cbrace :: post.data)) := by
  have h2 : ("\x7b\x7b" : String).data = [obrace, obrace] := by decide
  have h3 : ("\x7d\x7d" : String).data = [cbrace, cbrace] := by decide
  have h4 : (pre ++ "\x7b\x7b" ++ e ++ "\x7d\x7d" ++ post).data =
      pre.data ++ ("\x7b\x7b" : String).data ++ e.data ++
        ("\x7d\x7d" : String).data ++ post.data := by
    simp [String.data_append]
  rw [h4, h2, h3]
  simp

/-- Scan of an embedded placeholder between brace-free runs. -/
theorem phScan_embedded (pre e post : String) (he : e ≠ "")
    (hb : ∀ c ∈ e.data, isNonBrace c = true)
    (hpre : ∀ c ∈ pre.data, isNonBrace c = true)
    (hpost : ∀ c ∈ post.data, isNonBrace c = true) :
    phScan ((pre ++ "\x7b\x7b" ++ e ++ "\x7d\x7d" ++ post).toList) =
      pre.data.map Sum.inl ++ (Sum.inr e :: post.data.map Sum.inl) := by
  show phScan ((pre ++ "\x7b\x7b" ++ e ++ "\x7d\x7d" ++ post).data) = _
  rw [data_embedded, phScan_literal_append pre.data _ hpre]
  rw [phScan_placeholder_cons e.data post.data
    (data_ne_nil_of_ne_empty e he) hb]
  rw [string_eta, phScan_all_literal post.data hpost]

/-- C9: template rendering semantics of `render_template` — a string that
is exactly one `{{expr}}` resolves to the raw looked-up value (type
preserved) and stays unchanged when the dot-path is unresolvable; a string
with `{{expr}}` embedded among other text string-interpolates each
resolvable placeholder and leaves each unresolvable placeholder verbatim;
rendering never raises (it is a total function). -/
theorem c9_render_template_semantics :
    ∀ vars : List (String × Value),
    (∀ e v, e ≠ "" → (∀ c ∈ e.data, isNonBrace c = true) →
      lookupPath (Value.dict vars) (pyStrip e) = v → v ≠ Value.none →
      renderTemplate (Value.str ("\x7b\x7b" ++ e ++ "\x7d\x7d")) vars = v) ∧
    (∀ e, e ≠ "" → (∀ c ∈ e.data, isNonBrace c = true) →
      lookupPath (Value.dict vars) (pyStrip e) = Value.none →
      renderTemplate (Value.str ("\x7b\x7b" ++ e ++ "\x7d\x7d")) vars =
        Value.str ("\x7b\x7b" ++ e ++ "\x7d\x7d")) ∧
    (∀ pre e post v, e ≠ "" → (∀ c ∈ e.data, isNonBrace c = true) →
      (∀ c ∈ pre.data, isNonBrace c = true) →
      (∀ c ∈ post.data, isNonBrace c = true) →
      (pre ≠ "" ∨ post ≠ "") →
      lookupPath (Value.dict vars) (pyStrip e) = v → v ≠ Value.none →
      renderTemplate
        (Value.str (pre ++ "\x7b\x7b" ++ e ++ "\x7d\x7d" ++ post)) vars =
        Value.str (pre ++ pyStr v ++ post)) ∧
    (∀ pre e post, e ≠ "" → (∀ c ∈ e.data, isNonBrace c = true) →
      (∀ c ∈ pre.data, isNonBrace c = true) →
      (∀ c ∈ post.data, isNonBrace c = true) →
      (pre ≠ "" ∨ post ≠ "") →
      lookupPath (Value.dict vars) (pyStrip e) = Value.none →
      renderTemplate
        (Value.str (pre ++ "\x7b\x7b" ++ e ++ "\x7d\x7d" ++ post)) vars =
        Value.str (pre ++ "\x7b\x7b" ++ e ++ "\x7d\x7d" ++ post)) := by
  intro vars
  have hsegs_ne_single :
      ∀ (pre : String) (e : String) (post : String),
        (pre ≠ "" ∨ post ≠ "") →
        ∀ e', pre.data.map Sum.inl ++ (Sum.inr e :: post.data.map Sum.inl) ≠
          [Sum.inr e'] := by
    intro pre e post hne e' hcontra
    rcases hne with hp | hp
    · have hd := data_ne_nil_of_ne_empty pre hp
      cases hpd : pre.data with
      | nil => exact hd hpd
      | cons c rest =>
        rw [hpd] at hcontra
        simp at hcontra
    · have hd := data_ne_nil_of_ne_empty post hp
      cases hpd : post.data with
      | nil => exact hd hpd
      | cons c rest =>
        rw [hpd] at hcontra
        cases hqd : pre.data with
        | nil => rw [hqd] at hcontra; simp at hcontra
        | cons q qrest => rw [hqd] at hcontra; simp at hcontra
  have hnotall :
      ∀ (pre : String) (e : String) (post : String),
        ((pre.data.map Sum.inl ++ (Sum.inr e :: post.data.map Sum.inl)).all
          fun seg => seg.isLeft) = false := by
    intro pre e post
    simp
  refine ⟨?_, ?_, ?_, ?_⟩
  · intro e v he hb hv hvne
    rw [renderString_single_placeholder vars e he hb, hv]
    cases v <;> simp_all
  · intro e he hb hv
    rw [renderString_single_placeholder vars e he hb, hv]
  · intro pre e post v he hb hpre hpost hne hv hvne
    rw [renderString_multi vars _ _
      (phScan_embedded pre e post he hb hpre hpost)
      (hnotall pre e post) (hsegs_ne_single pre e post hne)]
    congr 1
    apply String.ext
    rw [subSegs_literal_append]
    show pre.data ++ subSegs vars (Sum.inr e :: post.data.map Sum.inl) = _
    have hrepl : subSegs vars (Sum.inr e :: post.data.map Sum.inl) =
        (pyStr v).toList ++ post.data := by
      show (match lookupPath (Value.dict vars) (pyStrip e) with
        | Value.none => obrace :: obrace :: (e.data ++ [cbrace, cbrace])
        | v => (pyStr v).toList) ++
          subSegs vars (post.data.map Sum.inl) = _
      rw [hv, subSegs_all_literal]
      cases v <;> simp_all
    rw [hrepl]
    simp [String.data_append, List.append_assoc]
  · intro pre e post he hb hpre hpost hne hv
    rw [renderString_multi vars _ _
      (phScan_embedded pre e post he hb hpre hpost)
      (hnotall pre e post) (hsegs_ne_single pre e post hne)]
    congr 1
    apply String.ext
    rw [subSegs_literal_append]
    show pre.data ++ subSegs vars (Sum.inr e :: post.data.map Sum.inl) = _
    have hrepl : subSegs vars (Sum.inr e :: post.data.map Sum.inl) =
        obrace :: obrace :: (e.data ++ [cbrace, cbrace]) ++ post.data := by
      show (match lookupPath (Value.dict vars) (pyStrip e) with
        | Value.none => obrace :: obrace :: (e.data ++ [cbrace, cbrace])
        | v => (pyStr v).toList) ++
          subSegs vars (post.data.map Sum.inl) = _
      rw [hv, subSegs_all_literal]
    rw [hrepl, data_embedded]
    simp [List.append_assoc]

/-- C9 witness: concrete renderings — a lone placeholder yields the raw
integer, an embedded one interpolates, an unresolvable one is kept. -/
theorem c9_render_template_semantics_witness :
    renderTemplate (Value.str "\x7b\x7ba\x7d\x7d")
      [("a", Value.int 7)] = Value.int 7 ∧
    renderTemplate (Value.str "\x7b\x7bmissing\x7d\x7d")
      [("a", Value.int 7)] = Value.str "\x7b\x7bmissing\x7d\x7d" ∧
    renderTemplate (Value.str ("x" ++ "\x7b\x7b" ++ "a" ++ "\x7d\x7d" ++ "y"))
      [("a", Value.int 7)] = Value.str ("x" ++ pyStr (Value.int 7) ++ "y") := by
  have h := c9_render_template_semantics [("a", Value.int 7)]
  refine ⟨?_, ?_, ?_⟩
  · exact h.1 "a" (Value.int 7) (by decide) (by decide) rfl
      (fun hh => nomatch hh)
  · exact h.2.1 "missing" (by decide) (by decide) rfl
  · exact h.2.2.1 "x" "a" "y" (Value.int 7) (by decide) (by decide)
      (by decide) (by decide) (Or.inl (by decide)) rfl (fun hh => nomatch hh)

/-- Literal inequality to `BEq` falsity. -/
theorem beq_false_of_ne {a b : String} (h : a ≠ b) : (a == b) = false := by
  simp [h]

/-- Reading back the key just written. -/
theorem dictGet_dictSet_self (d : List (String × Value)) (k : String)
    (v : Value) : dictGet (dictSet d k v) k = Option.some v := by
  induction d with
  | nil => simp [dictGet, dictSet]
  | cons kv rest ih =>
    by_cases h : kv.1 = k
    · simp [dictGet, dictSet, h]
    · simp only [dictSet, beq_false_of_ne h, Bool.false_eq_true, if_false]
      simp only [dictGet, List.find?, beq_false_of_ne h] at ih ⊢
      exact ih

/-- Writing one key does not affect reads of another. -/
theorem dictGet_dictSet_other (d : List (String × Value)) (k k' : String)
    (v : Value) (h : k' ≠ k) :
    dictGet (dictSet d k v) k' = dictGet d k' := by
  have hkk : (k == k') = false := beq_false_of_ne (fun hh => h hh.symm)
  induction d with
  | nil => simp [dictGet, dictSet, List.find?, hkk]
  | cons kv rest ih =>
    by_cases hk : kv.1 = k
    · simp only [dictSet, hk, beq_self_eq_true, if_true]
      simp only [dictGet, List.find?, hkk, hk]
    · simp only [dictSet, beq_false_of_ne hk, Bool.false_eq_true, if_false]
      simp only [dictGet, List.find?] at ih ⊢
      cases hfind : (kv.1 == k') <;> simp [hfind, ih]

/-- `setdefault` of another key does not affect reads. -/
theorem dictGet_setdefault_other (d : List (String × Value)) (k k' : String)
    (v : Value) (h : k' ≠ k) :
    dictGet (dictSetdefault d k v) k' = dictGet d k' := by
  have hkk : (k == k') = false := beq_false_of_ne (fun hh => h hh.symm)
  unfold dictSetdefault
  split
  · rfl
  · simp only [dictGet, List.find?_append]
    cases hfind : (d.find? fun kv => kv.1 == k') with
    | some x => simp [hfind]
    | none => simp [hfind, List.find?, hkk]

/-- `setdefault` keeps an existing value and installs the default
otherwise. -/
theorem dictGet_setdefault_self (d : List (String × Value)) (k : String)
    (v : Value) :
    dictGet (dictSetdefault d k v) k =
      Option.some ((dictGet d k).getD v) := by
  unfold dictSetdefault
  split
  · next hsome =>
    cases hget : dictGet d k with
    | some x => simp [hget]
    | none => rw [hget] at hsome; simp at hsome
  · next hnone =>
    cases hget : dictGet d k with
    | some x => rw [hget] at hnone; simp at hnone
    | none =>
      simp only [dictGet, List.find?_append] at *
      cases hfind : (d.find? fun kv => kv.1 == k) with
      | some x => simp [hfind] at hget
      | none => simp [hfind, List.find?]

/-- Reading `delay_seconds` through `_ensure_metadata_fields`. -/
theorem ensure_delay_seconds (md : List (String × Value)) :
    dictGet (ensureMetadataFields md
      ["label", "text", "suggested_value", "delay_seconds"]) "delay_seconds" =
      Option.some ((dictGet md "delay_seconds").getD Value.none) := by
  unfold ensureMetadataFields
  simp only [List.foldl]
  rw [dictGet_setdefault_self]
  rw [dictGet_setdefault_other _ _ _ _ (by decide)]
  rw [dictGet_setdefault_other _ _ _ _ (by decide)]
  rw [dictGet_setdefault_other _ _ _ _ (by decide)]

/-- An empty `takeWhile` forces an identity `dropWhile`. -/
theorem dropWhile_eq_self_of_takeWhile_nil {α : Type} (p : α → Bool)
    (l : List α) (h : List.takeWhile p l = []) :
    List.dropWhile p l = l := by
  cases l with
  | nil => rfl
  | cons c rest =>
    simp only [List.takeWhile_cons, List.dropWhile_cons] at h ⊢
    cases hp : p c with
    | true => rw [hp] at h; simp at h
    | false => simp

/-- `\d+(?:\.\d+)?\s*(unit)` on a digit run directly followed by a unit. -/
theorem tryDuration_append_unit (ds u : List Char) (k : UnitKind)
    (hne : ds ≠ []) (hdig : ∀ c ∈ ds, Char.isDigit c = true)
    (htaku : List.takeWhile Char.isDigit u = [])
    (hdot : ∀ r, u ≠ '.' :: r)
    (hsp : List.dropWhile isPySpace u = u)
    (hmu : matchUnit u = Option.some k) :
    tryDuration (ds ++ u) =
      Option.some (applyUnit k (floatOfParts ds Option.none)) := by
  have htake : List.takeWhile Char.isDigit (ds ++ u) = ds := by
    rw [takeWhile_append_all Char.isDigit ds u hdig, htaku, List.append_nil]
  have hdrop : List.dropWhile Char.isDigit (ds ++ u) = u := by
    rw [dropWhile_append_all Char.isDigit ds u hdig]
    exact dropWhile_eq_self_of_takeWhile_nil _ _ htaku
  unfold tryDuration
  rw [htake, hdrop]
  simp only [if_neg hne]
  cases hu : u with
  | nil =>
    rw [hu] at hsp hmu
    simp only [hsp, hmu]
  | cons c r =>
    have hc : c ≠ '.' := by
      intro hcc
      exact hdot r (by rw [hu, hcc])
    rw [hu] at hsp hmu
    simp only [if_neg hc, hsp, hmu]

/-- The same with a fractional part between the digits and the unit. -/
theorem tryDuration_append_frac (ds fs u : List Char) (k : UnitKind)
    (hne : ds ≠ []) (hdig : ∀ c ∈ ds, Char.isDigit c = true)
    (hfne : fs ≠ []) (hfdig : ∀ c ∈ fs, Char.isDigit c = true)
    (htaku : List.takeWhile Char.isDigit u = [])
    (hsp : List.dropWhile isPySpace u = u)
    (hmu : matchUnit u = Option.some k) :
    tryDuration (ds ++ '.' :: (fs ++ u)) =
      Option.some (applyUnit k (floatOfParts ds (Option.some fs))) := by
  have htake : List.takeWhile Char.isDigit (ds ++ '.' :: (fs ++ u)) = ds := by
    rw [takeWhile_append_all Char.isDigit ds _ hdig]
    simp [List.takeWhile_cons]
  have hdrop : List.dropWhile Char.isDigit (ds ++ '.' :: (fs ++ u)) =
      '.' :: (fs ++ u) := by
    rw [dropWhile_append_all Char.isDigit ds _ hdig]
    simp [List.dropWhile_cons]
  have htakef : List.takeWhile Char.isDigit (fs ++ u) = fs := by
    rw [takeWhile_append_all Char.isDigit fs u hfdig, htaku, List.append_nil]
  have hdropf : List.dropWhile Char.isDigit (fs ++ u) = u := by
    rw [dropWhile_append_all Char.isDigit fs u hfdig]
    exact dropWhile_eq_self_of_takeWhile_nil _ _ htaku
  unfold tryDuration
  rw [htake, hdrop]
  simp only [if_neg hne, if_pos rfl, htakef, hdropf, if_neg hfne]
  simp only [if_true, ite_true, hsp, hmu]

/-- The unit spellings of the duration pattern. -/
def waitUnitStrings : List String :=
  ["ms", "millisecond", "milliseconds", "s", "sec", "secs", "second",
    "seconds", "m", "min", "mins", "minute", "minutes"]

/-- C8 counterexample: the concrete wait instruction of the claim does not
yield `delay_seconds` for *any* snippet — on a snippet whose class
attribute is whitespace-only (and nothing of higher selector priority
matches) `generate_scraping_action` raises `IndexError` from
`split()[0]` before any action is produced. -/
theorem c8_counterexample :
    generateScrapingAction "Wait for 2.5 seconds before continuing"
      "<div class=\" \">" Option.none =
      Except.error "IndexError: list index out of range" := rfl

/-- Whenever `generate_scraping_action` classifies the instruction as a
wait and the duration parser finds a value, the produced action stores it
under `metadata.delay_seconds`. -/
theorem generate_delay_stored (i s : String) (st : Option String)
    (act : ScrapingAction) (d : ℚ)
    (hdetect : detectActionType (normaliseWhitespace (pyStrip i)) = "wait")
    (hdur : extractWaitDuration (normaliseWhitespace (pyStrip i)) =
      Option.some d)
    (hok : generateScrapingAction i s st = Except.ok act) :
    dictGet act.metadata "delay_seconds" =
      Option.some (Value.float d) := by
  unfold generateScrapingAction at hok
  cases hpair : extractAttributes (pyStrip s) with
  | mk tag attrs =>
    cases hsel : guessSelector tag attrs with
    | error e =>
      simp [hpair, hsel] at hok
    | ok selector =>
      simp only [hpair] at hok
      simp [hsel, hdetect, hdur] at hok
      subst hok
      rw [ensure_delay_seconds]
      cases st with
      | none =>
        dsimp only
        rw [dictGet_dictSet_self]
        rfl
      | some key =>
        dsimp only
        by_cases hkey : pyStrip key = ""
        · rw [if_pos hkey, dictGet_dictSet_self]
          rfl
        · rw [if_neg hkey]
          rw [dictGet_dictSet_other _ _ _ _ (by decide), dictGet_dictSet_self]
          rfl

/-- C8 amended: for every instruction classified as a wait whose text
contains a `<number><unit>` duration, the parsed value is converted to
seconds (`ms`-family divided by 1000, minute-family multiplied by 60,
second-family unchanged, case-insensitively) and stored as
`metadata.delay_seconds` — but only when action generation succeeds; the
concrete instruction `"Wait for 2.5 seconds before continuing"` yields
`delay_seconds = 2.5` for every snippet on which generation does not
raise (rational arithmetic stands in for Python floats). -/
theorem c8_wait_duration_conversion :
    (∀ i s st act d,
      detectActionType (normaliseWhitespace (pyStrip i)) = "wait" →
      extractWaitDuration (normaliseWhitespace (pyStrip i)) = Option.some d →
      generateScrapingAction i s st = Except.ok act →
      dictGet act.metadata "delay_seconds" =
        Option.some (Value.float d)) ∧
    (∀ ds u k, ds ≠ [] → (∀ c ∈ ds, Char.isDigit c = true) →
      u ∈ waitUnitStrings → matchUnit u.data = Option.some k →
      extractWaitDuration ((⟨ds⟩ : String) ++ u) =
        Option.some (applyUnit k (floatOfParts ds Option.none))) ∧
    (∀ ds fs u k, ds ≠ [] → (∀ c ∈ ds, Char.isDigit c = true) →
      fs ≠ [] → (∀ c ∈ fs, Char.isDigit c = true) →
      u ∈ waitUnitStrings → matchUnit u.data = Option.some k →
      extractWaitDuration ((⟨ds⟩ : String) ++ "." ++ (⟨fs⟩ : String) ++ u) =
        Option.some (applyUnit k (floatOfParts ds (Option.some fs)))) ∧
    (matchUnit "ms".data = Option.some UnitKind.ms ∧
      matchUnit "milliseconds".data = Option.some UnitKind.ms ∧
      matchUnit "s".data = Option.some UnitKind.sec ∧
      matchUnit "secs".data = Option.some UnitKind.sec ∧
      matchUnit "seconds".data = Option.some UnitKind.sec ∧
      matchUnit "m".data = Option.some UnitKind.min ∧
      matchUnit "mins".data = Option.some UnitKind.min ∧
      matchUnit "minutes".data = Option.some UnitKind.min ∧
      matchUnit "SECONDS".data = Option.some UnitKind.sec ∧
      (∀ q : ℚ, applyUnit UnitKind.ms q = q / 1000 ∧
        applyUnit UnitKind.sec q = q ∧ applyUnit UnitKind.min q = q * 60)) ∧
    floatOfParts ['2'] (Option.some ['5']) = (5/2 : ℚ) ∧
    (∀ snippet act,
      generateScrapingAction "Wait for 2.5 seconds before continuing"
        snippet Option.none = Except.ok act →
      dictGet act.metadata "delay_seconds" =
        Option.some (Value.float (5/2))) := by
  have hfloat : floatOfParts ['2'] (Option.some ['5']) = (5/2 : ℚ) := by
    have h2 : ('2'.toNat - 48 : ℕ) = 2 := by decide
    have h5 : ('5'.toNat - 48 : ℕ) = 5 := by decide
    simp [floatOfParts, digitsToNat, h2, h5]
    norm_num
  refine ⟨generate_delay_stored, ?_, ?_, ?_, hfloat, ?_⟩
  · intro ds u k hne hdig hu hmk
    have hfacts : List.takeWhile Char.isDigit u.data = [] ∧
        List.dropWhile isPySpace u.data = u.data ∧
        (∀ r, u.data ≠ '.' :: r) := by
      simp only [waitUnitStrings, List.mem_cons, List.not_mem_nil,
        or_false] at hu
      rcases hu with rfl|rfl|rfl|rfl|rfl|rfl|rfl|rfl|rfl|rfl|rfl|rfl|rfl <;>
        · refine ⟨by decide, by decide, ?_⟩
          intro r hh
          simp at hh
    obtain ⟨htaku, hsp, hdot⟩ := hfacts
    cases ds with
    | nil => exact absurd rfl hne
    | cons d0 ds1 =>
      have htd := tryDuration_append_unit (d0 :: ds1) u.data k hne hdig
        htaku hdot hsp hmk
      have hdata : ((⟨d0 :: ds1⟩ : String) ++ u).toList =
          d0 :: (ds1 ++ u.data) := by
        show ((⟨d0 :: ds1⟩ : String) ++ u).data = _
        rw [String.data_append]
        rfl
      unfold extractWaitDuration
      rw [hdata]
      rw [List.cons_append] at htd
      simp [extractWaitDurationChars, htd]
  · intro ds fs u k hne hdig hfne hfdig hu hmk
    have hfacts : List.takeWhile Char.isDigit u.data = [] ∧
        List.dropWhile isPySpace u.data = u.data := by
      simp only [waitUnitStrings, List.mem_cons, List.not_mem_nil,
        or_false] at hu
      rcases hu with rfl|rfl|rfl|rfl|rfl|rfl|rfl|rfl|rfl|rfl|rfl|rfl|rfl <;>
        exact ⟨by decide, by decide⟩
    obtain ⟨htaku, hsp⟩ := hfacts
    cases ds with
    | nil => exact absurd rfl hne
    | cons d0 ds1 =>
      have htd := tryDuration_append_frac (d0 :: ds1) fs u.data k hne hdig
        hfne hfdig htaku hsp hmk
      have hdata :
          ((⟨d0 :: ds1⟩ : String) ++ "." ++ (⟨fs⟩ : String) ++ u).toList =
          d0 :: (ds1 ++ '.' :: (fs ++ u.data)) := by
        show ((⟨d0 :: ds1⟩ : String) ++ "." ++ (⟨fs⟩ : String) ++ u).data = _
        simp [String.data_append]
      unfold extractWaitDuration
      rw [hdata]
      rw [List.cons_append] at htd
      simp [extractWaitDurationChars, htd]
  · refine ⟨by decide, by decide, by decide, by decide, by decide, by decide,
      by decide, by decide, by decide, ?_⟩
    intro q
    exact ⟨rfl, rfl, rfl⟩
  · intro snippet act hok
    have h := generate_delay_stored
      "Wait for 2.5 seconds before continuing" snippet Option.none act
      (floatOfParts ['2'] (Option.some ['5'])) rfl rfl hok
    rw [hfloat] at h
    exact h

/-- C8 witness: generating from the claim's instruction and the snippet
`<div>` succeeds and stores `delay_seconds = 5/2`. -/
theorem c8_wait_duration_conversion_witness :
    (generateScrapingAction "Wait for 2.5 seconds before continuing" "<div>"
      Option.none).map (fun act => dictGet act.metadata "delay_seconds") =
      Except.ok (Option.some (Value.float (5/2))) := by
  have h := c8_wait_duration_conversion.2.2.2.2.2 "<div>" _ rfl
  exact congrArg Except.ok h

/-- Every step result echoes its index and the action's type/selector. -/
theorem executeSingleAction_fields (page : Page)
    (handler : Option CustomActionHandler) (idx : Nat) (a : ScrapingAction)
    (credentials : RoutineCredentials) (ctx : List (String × Value)) :
    (executeSingleAction page handler idx a credentials ctx).1.index = idx ∧
    (executeSingleAction page handler idx a credentials ctx).1.type = a.type ∧
    (executeSingleAction page handler idx a credentials ctx).1.selector =
      a.selector := by
  unfold executeSingleAction
  exact ⟨rfl, rfl, rfl⟩

/-- The executor walks the full list: one result per action. -/
theorem runActions_length (page : Page)
    (handler : Option CustomActionHandler)
    (credentials : RoutineCredentials) :
    ∀ (acts : List ScrapingAction) (idx : Nat)
      (ctx : List (String × Value)),
      (runActions page handler credentials acts idx ctx).length =
        acts.length := by
  intro acts
  induction acts with
  | nil => intro idx ctx; rfl
  | cons a rest ih =>
    intro idx ctx
    unfold runActions
    simp only [List.length_cons]
    rw [ih]

/-- The i-th result belongs to the i-th action, in stored order. -/
theorem runActions_spec (page : Page)
    (handler : Option CustomActionHandler)
    (credentials : RoutineCredentials) :
    ∀ (acts : List ScrapingAction) (idx : Nat)
      (ctx : List (String × Value)) (i : Nat) (hi : i < acts.length),
      ∃ r, (runActions page handler credentials acts idx ctx).get? i =
          Option.some r ∧
        r.index = idx + i ∧ r.type = (acts.get ⟨i, hi⟩).type ∧
        r.selector = (acts.get ⟨i, hi⟩).selector := by
  intro acts
  induction acts with
  | nil => intro idx ctx i hi; exact absurd hi (by simp)
  | cons a rest ih =>
    intro idx ctx i hi
    unfold runActions
    cases i with
    | zero =>
      refine ⟨(executeSingleAction page handler idx a credentials ctx).1,
        ?_, ?_, ?_, ?_⟩
      · simp
      · rw [(executeSingleAction_fields page handler idx a credentials ctx).1]
        omega
      · exact (executeSingleAction_fields page handler idx a credentials ctx).2.1
      · exact (executeSingleAction_fields page handler idx a credentials ctx).2.2
    | succ j =>
      have hj : j < rest.length := by
        simp only [List.length_cons] at hi
        omega
      obtain ⟨r, hr, hidx, hty, hsel⟩ := ih (idx + 1)
        (executeSingleAction page handler idx a credentials ctx).2 j hj
      refine ⟨r, ?_, ?_, hty, hsel⟩
      · simp only [List.get?_cons_succ]
        exact hr
      · rw [hidx]
        omega

/-- The navigation guard succeeds under either C1 setup hypothesis. -/
theorem nav_ok_of_setup (routine : ScrapingRoutine) (page : Page)
    (hset : (page.url ≠ "" ∧ page.url ≠ "about:blank") ∨
      page.goto routine.url = Except.ok ()) :
    (if page.url = "" || page.url = "about:blank" then
      page.goto routine.url else Except.ok ()) = Except.ok () := by
  rcases hset with ⟨h1, h2⟩ | hg
  · simp [h1, h2]
  · split
    · exact hg
    · rfl

/-- C1: the routine executor attempts each parsed action exactly once in
stored order, returns exactly one StepResult per action, never lets a
per-step failure abort the walk or escape as an exception, and converts
any exception of a page primitive or of the custom handler during a
single action into `status="error"` with the exception text as detail. -/
theorem c1_per_step_error_containment :
    (∀ routine page credentials handler acts,
      parseActions routine.actions = Except.ok acts →
      ((page.url ≠ "" ∧ page.url ≠ "about:blank") ∨
        page.goto routine.url = Except.ok ()) →
      ∃ out, executeScrapingRoutine routine page credentials handler =
          Except.ok out ∧
        out.results.length = acts.length ∧
        (∀ i (hi : i < acts.length), ∃ r,
          out.results.get? i = Option.some r ∧ r.index = i ∧
          r.type = (acts.get ⟨i, hi⟩).type ∧
          r.selector = (acts.get ⟨i, hi⟩).selector)) ∧
    (∀ page handler idx a credentials ctx m,
      a.type = "click" → page.click a.selector = Except.error m →
      executeSingleAction page handler idx a credentials ctx =
        (⟨idx, a.type, a.selector, "error", Option.some m, Option.none⟩,
          ctx)) ∧
    (∀ page handler idx a credentials ctx m v,
      a.type = "fill" →
      resolveInputValue a credentials ctx = Except.ok (Option.some v) →
      page.fill a.selector v = Except.error m →
      executeSingleAction page handler idx a credentials ctx =
        (⟨idx, a.type, a.selector, "error", Option.some m, Option.some v⟩,
          ctx)) ∧
    (∀ page handler idx a credentials ctx m v,
      a.type = "select" →
      resolveSelectValue a credentials ctx = Except.ok (Option.some v) →
      page.selectOption a.selector v = Except.error m →
      executeSingleAction page handler idx a credentials ctx =
        (⟨idx, a.type, a.selector, "error", Option.some m, Option.some v⟩,
          ctx)) ∧
    (∀ page handler idx a credentials ctx m,
      a.type = "wait" →
      page.waitForTimeout (resolveWaitTimeout a) = Except.error m →
      executeSingleAction page handler idx a credentials ctx =
        (⟨idx, a.type, a.selector, "error", Option.some m, Option.none⟩,
          ctx)) ∧
    (∀ page h idx a credentials ctx m,
      a.type = "custom" →
      h a credentials ctx = Except.error m →
      executeSingleAction page (Option.some h) idx a credentials ctx =
        (⟨idx, a.type, a.selector, "error", Option.some m, Option.none⟩,
          ctx)) := by
  refine ⟨?_, ?_, ?_, ?_, ?_, ?_⟩
  · intro routine page credentials handler acts hparse hset
    refine ⟨⟨page.url, runActions page handler credentials acts 0 []⟩,
      ?_, ?_, ?_⟩
    · unfold executeScrapingRoutine
      rw [hparse, nav_ok_of_setup routine page hset]
    · exact runActions_length page handler credentials acts 0 []
    · intro i hi
      obtain ⟨r, hr, hidx, hty, hsel⟩ :=
        runActions_spec page handler credentials acts 0 [] i hi
      exact ⟨r, hr, by omega, hty, hsel⟩
  · intro page handler idx a credentials ctx m ha hm
    unfold executeSingleAction dispatchAction
    simp [ha, hm]
  · intro page handler idx a credentials ctx m v ha hres hm
    unfold executeSingleAction dispatchAction
    simp [ha, hres, hm]
  · intro page handler idx a credentials ctx m v ha hres hm
    unfold executeSingleAction dispatchAction
    simp [ha, hres, hm]
  · intro page handler idx a credentials ctx m ha hm
    unfold executeSingleAction dispatchAction
    simp [ha, hm]
  · intro page h idx a credentials ctx m ha hm
    unfold executeSingleAction dispatchAction
    simp [ha, hm]

/-- C1 witness: a failing click is recorded as an error step, and a
two-action routine yields exactly two step results. -/
theorem c1_per_step_error_containment_witness :
    executeSingleAction
      ⟨"https://x", fun _ => Except.ok (), fun _ => Except.error "boom",
        fun _ _ => Except.ok (), fun _ _ => Except.ok (),
        fun _ => Except.ok (), fun _ => Except.ok ()⟩
      Option.none 0 ⟨"click", "#b", "", Option.none, Option.none, []⟩
      ⟨"a@b.com", "p"⟩ [] =
      (⟨0, "click", "#b", "error", Option.some "boom", Option.none⟩, []) ∧
    (executeScrapingRoutine
      ⟨"https://x",
        [[("type", Value.str "click"), ("selector", Value.str "#b"),
          ("description", Value.str "")],
         [("type", Value.str "wait"), ("selector", Value.str ""),
          ("description", Value.str "")]]⟩
      ⟨"https://x", fun _ => Except.ok (), fun _ => Except.error "boom",
        fun _ _ => Except.ok (), fun _ _ => Except.ok (),
        fun _ => Except.ok (), fun _ => Except.ok ()⟩
      ⟨"a@b.com", "p"⟩ Option.none).map (fun out => out.results.length) =
      Except.ok 2 := by
  constructor
  · exact c1_per_step_error_containment.2.1 _ Option.none 0
      ⟨"click", "#b", "", Option.none, Option.none, []⟩
      ⟨"a@b.com", "p"⟩ [] "boom" rfl rfl
  · obtain ⟨out, hout, hlen, -⟩ :=
      c1_per_step_error_containment.1
        ⟨"https://x",
          [[("type", Value.str "click"), ("selector", Value.str "#b"),
            ("description", Value.str "")],
           [("type", Value.str "wait"), ("selector", Value.str ""),
            ("description", Value.str "")]]⟩
        ⟨"https://x", fun _ => Except.ok (), fun _ => Except.error "boom",
          fun _ _ => Except.ok (), fun _ _ => Except.ok (),
          fun _ => Except.ok (), fun _ => Except.ok ()⟩
        ⟨"a@b.com", "p"⟩ Option.none _ rfl
        (Or.inl ⟨by decide, by decide⟩)
    rw [hout]
    refine congrArg Except.ok ?_
    show out.results.length = 2
    rw [hlen]
    rfl

/-- Unresolvable all-fill routines leave the context empty and every step
skipped. -/
theorem runActions_all_fill_skipped (page : Page)
    (handler : Option CustomActionHandler)
    (credentials : RoutineCredentials) :
    ∀ (acts : List ScrapingAction) (idx : Nat),
      (∀ a ∈ acts, a.type = "fill") →
      (∀ a ∈ acts,
        resolveInputValue a credentials [] = Except.ok Option.none) →
      ∀ r ∈ runActions page handler credentials acts idx [],
        r.status = "skipped" := by
  intro acts
  induction acts with
  | nil =>
    intro idx _ _ r hr
    simp [runActions] at hr
  | cons a rest ih =>
    intro idx hfill hres r hr
    have hstep : executeSingleAction page handler idx a credentials [] =
        (⟨idx, a.type, a.selector, "skipped",
          Option.some "No value available for fill action",
          Option.none⟩, []) := by
      unfold executeSingleAction dispatchAction
      simp [hfill a (by simp), hres a (by simp)]
    unfold runActions at hr
    rw [hstep] at hr
    simp only [List.mem_cons] at hr
    rcases hr with rfl | hr
    · rfl
    · exact ih (idx + 1) (fun x hx => hfill x (by simp [hx]))
        (fun x hx => hres x (by simp [hx])) r hr

/-- C2: a fill (or select) action whose value resolver yields null is
recorded as `status="skipped"` with the code's detail text, touching
neither the page nor the context (the result is the same for every page);
a routine of only unresolvable fill actions executes without raising and
yields only skipped steps. -/
theorem c2_unresolvable_fill_skips :
    (∀ page handler idx a credentials ctx,
      a.type = "fill" →
      resolveInputValue a credentials ctx = Except.ok Option.none →
      executeSingleAction page handler idx a credentials ctx =
        (⟨idx, a.type, a.selector, "skipped",
          Option.some "No value available for fill action",
          Option.none⟩, ctx)) ∧
    (∀ page handler idx a credentials ctx,
      a.type = "select" →
      resolveSelectValue a credentials ctx = Except.ok Option.none →
      executeSingleAction page handler idx a credentials ctx =
        (⟨idx, a.type, a.selector, "skipped",
          Option.some "No option value available for select action",
          Option.none⟩, ctx)) ∧
    (∀ routine page credentials handler acts,
      parseActions routine.actions = Except.ok acts →
      ((page.url ≠ "" ∧ page.url ≠ "about:blank") ∨
        page.goto routine.url = Except.ok ()) →
      (∀ a ∈ acts, a.type = "fill") →
      (∀ a ∈ acts,
        resolveInputValue a credentials [] = Except.ok Option.none) →
      ∃ out, executeScrapingRoutine routine page credentials handler =
          Except.ok out ∧
        out.results.length = acts.length ∧
        ∀ r ∈ out.results, r.status = "skipped") := by
  refine ⟨?_, ?_, ?_⟩
  · intro page handler idx a credentials ctx ha hres
    unfold executeSingleAction dispatchAction
    simp [ha, hres]
  · intro page handler idx a credentials ctx ha hres
    unfold executeSingleAction dispatchAction
    simp [ha, hres]
  · intro routine page credentials handler acts hparse hset hfill hres
    refine ⟨⟨page.url, runActions page handler credentials acts 0 []⟩,
      ?_, ?_, ?_⟩
    · unfold executeScrapingRoutine
      rw [hparse, nav_ok_of_setup routine page hset]
    · exact runActions_length page handler credentials acts 0 []
    · exact runActions_all_fill_skipped page handler credentials acts 0
        hfill hres

/-- C2 witness: a routine with one metadata-free fill action is fully
skipped. -/
theorem c2_unresolvable_fill_skips_witness :
    executeSingleAction
      ⟨"https://x", fun _ => Except.ok (), fun _ => Except.ok (),
        fun _ _ => Except.ok (), fun _ _ => Except.ok (),
        fun _ => Except.ok (), fun _ => Except.ok ()⟩
      Option.none 0 ⟨"fill", "#f", "", Option.none, Option.none, []⟩
      ⟨"a@b.com", "p"⟩ [] =
      (⟨0, "fill", "#f", "skipped",
        Option.some "No value available for fill action", Option.none⟩,
        []) := by
  exact c2_unresolvable_fill_skips.1 _ Option.none 0
    ⟨"fill", "#f", "", Option.none, Option.none, []⟩
    ⟨"a@b.com", "p"⟩ [] rfl rfl

/-- C10: the setup phase of `execute_scraping_routine` is outside the
per-step exception handler — a validation failure of the stored action
documents, or an exception of the initial `goto` (performed when the page
is blank or `about:blank`), propagates to the caller and no step result
is produced. -/
theorem c10_setup_exceptions_propagate :
    (∀ routine page credentials handler e,
      parseActions routine.actions = Except.error e →
      executeScrapingRoutine routine page credentials handler =
        Except.error e) ∧
    (∀ routine page credentials handler acts e,
      parseActions routine.actions = Except.ok acts →
      (page.url = "" ∨ page.url = "about:blank") →
      page.goto routine.url = Except.error e →
      executeScrapingRoutine routine page credentials handler =
        Except.error e) := by
  constructor
  · intro routine page credentials handler e hparse
    unfold executeScrapingRoutine
    rw [hparse]
  · intro routine page credentials handler acts e hparse hblank hgoto
    unfold executeScrapingRoutine
    rw [hparse]
    have hcond : (page.url = "" || page.url = "about:blank") = true := by
      rcases hblank with h | h <;> simp [h]
    rw [hcond]
    simp only [if_true]
    rw [hgoto]

/-- C10 witness: navigation failure on a blank page surfaces directly. -/
theorem c10_setup_exceptions_propagate_witness :
    executeScrapingRoutine
      ⟨"https://x",
        [[("type", Value.str "click"), ("selector", Value.str "#b"),
          ("description", Value.str "")]]⟩
      ⟨"about:blank", fun _ => Except.error "net::ERR_FAILED",
        fun _ => Except.ok (), fun _ _ => Except.ok (),
        fun _ _ => Except.ok (), fun _ => Except.ok (),
        fun _ => Except.ok ()⟩
      ⟨"a@b.com", "p"⟩ Option.none = Except.error "net::ERR_FAILED" := by
  exact c10_setup_exceptions_propagate.2
    ⟨"https://x",
      [[("type", Value.str "click"), ("selector", Value.str "#b"),
        ("description", Value.str "")]]⟩
    _ ⟨"a@b.com", "p"⟩ Option.none _ "net::ERR_FAILED" rfl
    (Or.inr rfl) rfl

/-- C4 (code bug): the executor performs no element-text capture for
`metadata.store_text_as` and its step dictionaries carry no
`captured_text` key (the `StepResult` embedding lists exactly the six
keys the code emits).  Here a click action with
`store_text_as = "labels.submit"` succeeds, yet a probing custom handler
that reads `context.labels.submit` sees Python `None` — the execution
context was never populated, although the repository's own router test
(`test_action_reads_text_and_passes_to_flow`) and the
`ScrapingStepResult` schema expect a captured text. -/
theorem c4_no_text_capture :
    executeScrapingRoutine
      ⟨"https://example.com/form",
        [[("type", Value.str "click"),
          ("selector", Value.str "#submit-button"),
          ("description", Value.str "Read button label"),
          ("metadata",
            Value.dict [("store_text_as", Value.str "labels.submit")])],
         [("type", Value.str "custom"), ("selector", Value.str ""),
          ("description", Value.str "probe")]]⟩
      ⟨"https://example.com/form", fun _ => Except.ok (),
        fun _ => Except.ok (), fun _ _ => Except.ok (),
        fun _ _ => Except.ok (), fun _ => Except.ok (),
        fun _ => Except.ok ()⟩
      ⟨"a@b.com", "p"⟩
      (Option.some (fun _ _ ctx => Except.ok (Option.some
        ⟨"success",
          Option.some (pyStr (lookupDotted (Value.dict ctx) "labels.submit")),
          []⟩))) =
      Except.ok ⟨"https://example.com/form",
        [⟨0, "click", "#submit-button", "success", Option.none,
          Option.none⟩,
         ⟨1, "custom", "", "success", Option.some "None",
          Option.none⟩]⟩ := rfl

end Scrape
